import Mathlib

/-! # Bernard trigger: scan-task translation and the sync-job state machine

A shallow embedding of `triggers/bernard/bernard.go`:

* `filepath.Clean` (Unix), as used for the `Folder` of every scan;
* `daemon.getScanTask`, the translation of a `Paths` value into scans;
* Go error values with `errors.Is`, `syncJob.Run` and `newSyncJob`;
* the job closure built by `daemon.startAutoSync`, with the external
  collaborators (limiter, store, bernard, callback) given as outcomes;
* the schedule of one job (`Run` is invoked while its entry is scheduled) and
  the reference definition of the translation.
-/

namespace Bernard

/-! ## Go error values -/

/-- The package-level error values the trigger compares against, and any other
`errors.New` value (`other`). -/
inductive Sentinel where
  /-- The value `lowe.ErrInvalidCredentials`. -/
  | ErrInvalidCredentials
  /-- The value `lowe.ErrNetwork`. -/
  | ErrNetwork
  /-- The value `ds.ErrDataAnomaly`. -/
  | ErrDataAnomaly
  /-- The value `ds.ErrFullSync`. -/
  | ErrFullSync
  /-- The value `autoscan.ErrFatal`. -/
  | ErrFatal
  /-- Any other error value created with `errors.New`. -/
  | other (tag : Nat)
deriving DecidableEq, Repr

/-- A non-nil Go `error`. A nil error is `none : Option GoError`. -/
inductive GoError where
  /-- A package-level error value. -/
  | sentinel (s : Sentinel)
  /-- The value of `fmt.Errorf(format, id, inner)` for a format with the verbs
  `%v` and `%w`: the result unwraps to `inner`. -/
  | errorf (format : String) (id : String) (inner : GoError)
  /-- The value of `fmt.Errorf(format, id, shown, inner)` for a format with the
  verbs `%v`, `%v` and `%w`: `shown` is only printed into the message, the
  result unwraps to `inner` alone. -/
  | errorfv (format : String) (id : String) (shown : GoError) (inner : GoError)
  /-- An error whose chain reaches both `a` and `b` (`errors.Join`, a format
  with two `%w` verbs, or a type with its own `Unwrap`/`Is`). -/
  | join (a b : GoError)
deriving DecidableEq, Repr

/-- Go `errors.Is(err, target)` for a target that is a package-level value:
walk the chain of `err`, comparing each value met with the target. -/
def errors.Is : GoError → Sentinel → Bool
  | .sentinel s, target => s == target
  | .errorf _ _ inner, target => errors.Is inner target
  | .errorfv _ _ _ inner, target => errors.Is inner target
  | .join a b, target => errors.Is a target || errors.Is b target

/-! ## `filepath.Clean` on Unix -/

/-- Go `os.IsPathSeparator` on Unix. -/
def isPathSeparator (c : Char) : Bool := c == '/'

/-- The backtracking of a `..` element in `Clean`, after `out.w--` has set the
write index to `w`: `for out.w > dotdot && !IsPathSeparator(out.index(out.w))
{ out.w-- }`. Returns the final write index. -/
def backtrack (buf : List Char) (dotdot : Nat) : Nat → Nat
  | 0 => 0
  | w + 1 =>
    if dotdot < w + 1 && !isPathSeparator (buf.getD (w + 1) '/') then
      backtrack buf dotdot w
    else w + 1

/-- The main loop `for r < n` of `Clean`. `rest` is `path[r:]`, `out` the
bytes written so far (`out.w = out.length`), `dotdot` the index where `..`
must stop. Every iteration consumes at least one byte of `rest`, so the length
of the path is enough fuel. -/
def cleanLoop (rooted : Bool) : Nat → List Char → List Char → Nat → List Char
  | 0, _, out, _ => out
  | _ + 1, [], out, _ => out
  | fuel + 1, c :: rest, out, dotdot =>
    if isPathSeparator c then
      -- empty path element
      cleanLoop rooted fuel rest out dotdot
    else if c == '.' && (rest.isEmpty || isPathSeparator (rest.headD '/')) then
      -- . element
      cleanLoop rooted fuel rest out dotdot
    else if c == '.' && rest.head? == some '.' &&
        (rest.tail.isEmpty || isPathSeparator (rest.tail.headD '/')) then
      -- .. element: remove to last separator
      if dotdot < out.length then
        -- can backtrack
        cleanLoop rooted fuel rest.tail
          (out.take (backtrack out dotdot (out.length - 1))) dotdot
      else if !rooted then
        -- cannot backtrack, but not rooted, so append .. element
        let out2 := (if 0 < out.length then out ++ ['/'] else out) ++ ['.', '.']
        cleanLoop rooted fuel rest.tail out2 out2.length
      else
        cleanLoop rooted fuel rest.tail out dotdot
    else
      -- real path element: add slash if needed, then copy the element
      let out1 :=
        if (rooted && out.length != 1) || (!rooted && out.length != 0) then out ++ ['/']
        else out
      cleanLoop rooted fuel ((c :: rest).dropWhile (fun x => !isPathSeparator x))
        (out1 ++ (c :: rest).takeWhile (fun x => !isPathSeparator x)) dotdot

/-- Go `filepath.Clean` on Unix (no volume name, separator `/`). The Go code
works on bytes; `/` and `.` are ASCII, so on valid UTF-8 the same elements are
found character by character. -/
def filepath.Clean (path : String) : String :=
  let p := path.toList
  if p.isEmpty then "."
  else
    let rooted := isPathSeparator (p.headD '.')
    let out :=
      cleanLoop rooted p.length (if rooted then p.tail else p)
        (if rooted then ['/'] else []) (if rooted then 1 else 0)
    -- Turn empty string into "."
    if out.isEmpty then "." else String.mk out

/-! ## The data model of the trigger -/

/-- The retry budget of a sync job. -/
def maxSyncRetries : Int := 5

/-- Go `autoscan.Scan`, with the fields the trigger fills. `Time` is an
instant on an integer time line. -/
structure Scan where
  Folder : String
  Priority : Int
  Time : Int
deriving DecidableEq, Repr

/-- Go `drive`. `Rewriter` and `Allowed` are pure functions of the path.
`ScanTime` reads the clock: `ScanTime k` is what `drive.ScanTime()` returns
when `k` calls of it have been made before. -/
structure drive where
  ID : String
  Rewriter : String → String
  Allowed : String → Bool
  ScanTime : Nat → Int

/-- Go `Paths`, as filled by the paths hook of one partial sync. -/
structure Paths where
  NewFolders : List String
  OldFolders : List String
deriving DecidableEq, Repr

/-- Go `scanTask`. The counters are Go `int`; each is incremented at most once
per element of a slice, whose length is itself an `int`, so no increment
wraps. -/
structure scanTask where
  scans : List Scan
  added : Nat
  removed : Nat
deriving DecidableEq, Repr

/-- The fields of Go `daemon` that are plain data. The collaborators
(`callback`, `bernard`, `store`, `limiter`) appear as outcomes in `Env`. -/
structure daemon where
  cronSchedule : String
  priority : Int
  drives : List drive

/-! ## `daemon.getScanTask` -/

/-- The local state of `getScanTask`: the Go map `pathMap` used as a set of
rewritten paths, the task under construction, and `clock`, the number of
calls of `drive.ScanTime()` made so far (the state that call reads). -/
structure getScanTask.State where
  pathMap : List String
  task : scanTask
  clock : Nat
deriving DecidableEq, Repr

/-- The first loop of `getScanTask`, `for _, p := range paths.NewFolders`. -/
def getScanTask.newLoop (d : daemon) (dr : drive) :
    List String → getScanTask.State → getScanTask.State
  | [], st => st
  | p :: ps, st =>
    -- rewrite path
    let rewritten := dr.Rewriter p
    -- check if path already seen
    if rewritten ∈ st.pathMap then
      getScanTask.newLoop d dr ps st
    -- is this path allowed?
    else if !dr.Allowed rewritten then
      getScanTask.newLoop d dr ps { st with pathMap := rewritten :: st.pathMap }
    else
      -- add scan task
      getScanTask.newLoop d dr ps
        { pathMap := rewritten :: st.pathMap,
          task :=
            { scans := st.task.scans ++
                [{ Folder := filepath.Clean rewritten, Priority := d.priority,
                   Time := dr.ScanTime st.clock }],
              added := st.task.added + 1,
              removed := st.task.removed },
          clock := st.clock + 1 }

/-- The second loop of `getScanTask`, `for _, p := range paths.OldFolders`. -/
def getScanTask.oldLoop (d : daemon) (dr : drive) :
    List String → getScanTask.State → getScanTask.State
  | [], st => st
  | p :: ps, st =>
    -- rewrite path
    let rewritten := dr.Rewriter p
    -- check if path already seen
    if rewritten ∈ st.pathMap then
      getScanTask.oldLoop d dr ps st
    -- is this path allowed?
    else if !dr.Allowed rewritten then
      getScanTask.oldLoop d dr ps { st with pathMap := rewritten :: st.pathMap }
    else
      -- add scan task
      getScanTask.oldLoop d dr ps
        { pathMap := rewritten :: st.pathMap,
          task :=
            { scans := st.task.scans ++
                [{ Folder := filepath.Clean rewritten, Priority := d.priority,
                   Time := dr.ScanTime st.clock }],
              added := st.task.added,
              removed := st.task.removed + 1 },
          clock := st.clock + 1 }

/-- The body of `getScanTask` as a state transformer: both loops, starting
from an empty map and an empty task, with the clock at `clock`. -/
def getScanTask.run (d : daemon) (dr : drive) (paths : Paths) (clock : Nat) :
    getScanTask.State :=
  getScanTask.oldLoop d dr paths.OldFolders
    (getScanTask.newLoop d dr paths.NewFolders
      { pathMap := [], task := { scans := [], added := 0, removed := 0 }, clock := clock })

/-- Go `daemon.getScanTask`: the task it returns when `clock` calls of
`drive.ScanTime()` have been made before. -/
def getScanTask (d : daemon) (dr : drive) (paths : Paths) (clock : Nat) : scanTask :=
  (getScanTask.run d dr paths clock).task

/-! ## The cron scheduler, as far as the trigger drives it -/

/-- The state of a `cron.Cron` (robfig/cron v3) the trigger can observe:
the ids of the scheduled entries, the last id given out, whether `Start` was
called, and the ids `Remove` was called with, in order. -/
structure Cron where
  entries : List Nat
  nextID : Nat
  running : Bool
  removeCalls : List Nat
deriving DecidableEq, Repr

/-- Go `cron.New()`. -/
def Cron.New : Cron := { entries := [], nextID := 0, running := false, removeCalls := [] }

/-- Go `(*Cron).Remove`: the entry with this id is dropped from the schedule. -/
def Cron.Remove (c : Cron) (id : Nat) : Cron :=
  { c with entries := c.entries.filter (fun e => e != id),
           removeCalls := c.removeCalls ++ [id] }

/-- Go `(*Cron).AddJob` once the schedule has been parsed: the next id is
given to a new entry. -/
def Cron.Schedule (c : Cron) : Nat × Cron :=
  (c.nextID + 1, { c with nextID := c.nextID + 1, entries := c.entries ++ [c.nextID + 1] })

/-- Go `(*Cron).Start`. -/
def Cron.Start (c : Cron) : Cron := { c with running := true }

/-! ## `syncJob` -/

/-- Go `int` arithmetic on a 64-bit platform: the result wraps. -/
def wrapInt (x : Int) : Int :=
  (x + 9223372036854775808) % 18446744073709551616 - 9223372036854775808

/-- Go `syncJob`. The job function `fn` is a closure: `E` is what the outside
world answers during one call, `W` the state the closure reads and writes.
The `cron` pointer is the `Cron` state passed to `Run`; the logger has no
effect on the state. -/
structure syncJob (E W : Type) where
  attempts : Int
  errors : List GoError
  jobID : Nat
  fn : E → W → Option GoError × W

/-- What one call of `syncJob.Run` leaves behind. -/
structure RunResult (E W : Type) where
  job : syncJob E W
  cron : Cron
  world : W

/-- The tail of `syncJob.Run` after the `switch`: abort if max retries
reached. -/
def syncJob.abortIfMax {E W : Type} (s : syncJob E W) (c : Cron) (w : W) : RunResult E W :=
  if s.attempts ≥ maxSyncRetries then
    { job := s, cron := c.Remove s.jobID, world := w }
  else
    { job := s, cron := c, world := w }

/-- Go `(*syncJob).Run`. -/
def syncJob.Run {E W : Type} (s : syncJob E W) (c : Cron) (env : E) (w : W) : RunResult E W :=
  -- increase attempt counter
  let s1 := { s with attempts := wrapInt (s.attempts + 1) }
  -- run job
  let r := s1.fn env w
  -- handle job response
  match r.1 with
  | none =>
    -- job completed successfully
    { job := { s1 with attempts := 0, errors := [] }, cron := c, world := r.2 }
  | some err =>
    if errors.Is err .ErrInvalidCredentials || errors.Is err .ErrDataAnomaly ||
        errors.Is err .ErrNetwork then
      -- retryable error occurred
      syncJob.abortIfMax { s1 with errors := s1.errors ++ [err] } c r.2
    else if errors.Is err .ErrFatal then
      -- fatal error occurred, we cannot recover from this safely
      { job := s1, cron := c.Remove s1.jobID, world := r.2 }
    else
      -- an un-expected/un-handled error occurred, retryable with the same retry logic
      syncJob.abortIfMax { s1 with errors := s1.errors ++ [err] } c r.2

/-- Go `newSyncJob`: `jobID` has its zero value until `startAutoSync` sets it. -/
def newSyncJob {E W : Type} (job : E → W → Option GoError × W) : syncJob E W :=
  { attempts := 0, errors := [], jobID := 0, fn := job }

/-- The first case of the `switch` in `Run`: the error matches one of the three
retryable values. -/
def isRetryable (err : GoError) : Bool :=
  errors.Is err .ErrInvalidCredentials || errors.Is err .ErrDataAnomaly ||
    errors.Is err .ErrNetwork

/-- Consecutive calls of `Run`, one per element of `envs`. -/
def syncJob.runs {E W : Type} (s : syncJob E W) (c : Cron) (w : W) : List E → RunResult E W
  | [] => { job := s, cron := c, world := w }
  | env :: envs =>
    syncJob.runs (s.Run c env w).job (s.Run c env w).cron (s.Run c env w).world envs

/-- What the job function returns in each of the consecutive calls of `runs`. -/
def syncJob.outcomes {E W : Type} (s : syncJob E W) (c : Cron) (w : W) :
    List E → List (Option GoError)
  | [] => []
  | env :: envs =>
    (s.fn env w).1 ::
      syncJob.outcomes (s.Run c env w).job (s.Run c env w).cron (s.Run c env w).world envs

/-! ## The job closure built by `daemon.startAutoSync` -/

/-- The calls one execution of a job function makes, in order. -/
inductive Event where
  /-- A call of `d.limiter.Acquire(1)`. -/
  | Acquire
  /-- A call of `d.limiter.Release(1)`. -/
  | Release
  /-- A call of `d.bernard.FullSync(drive.ID)`. -/
  | FullSync (driveID : String)
  /-- A call of `d.bernard.PartialSync(drive.ID, dh, ph, ch)`. -/
  | PartialSync (driveID : String)
  /-- A call of `d.getScanTask(&drive, paths)`. -/
  | getScanTask (paths : Paths)
  /-- A call of `d.callback(task.scans...)`. -/
  | callback (scans : List Scan)
deriving DecidableEq, Repr

/-- What the collaborators answer during one execution of a job function:
the error results of `limiter.Acquire`, `bernard.FullSync` and
`bernard.PartialSync`, the `Paths` the hook has collected when `PartialSync`
returns, and the error result of the downstream callback. `PageToken` is the
error result `d.store.PageToken(drive.ID)` would give at the time of the
execution; the job function never asks for it, the partial sync of the change
source does (see `Env.oneStore`). -/
structure Env where
  Acquire : Option GoError
  FullSync : Option GoError
  PartialSync : Option GoError
  paths : Paths
  callback : List Scan → Option GoError
  PageToken : Option GoError

/-- The change source works on the same store as the trigger: a partial sync
asks the store for the page token first, so when the store would answer
`PageToken` with an error, `PartialSync` fails, and it fails with
`ds.ErrFullSync` when that error is `ds.ErrFullSync` (the "no existing cursor"
signal of the change source). Answers that do not satisfy this describe no
execution in which `PartialSync` is called. -/
def Env.oneStore (env : Env) : Bool :=
  match env.PageToken with
  | none => true
  | some e =>
    match env.PartialSync with
    | none => false
    | some e2 => !errors.Is e .ErrFullSync || errors.Is e2 .ErrFullSync

/-- The state a job function reads and writes: its captured variable
`fullSync`, the number of permits held on the limiter (`gate`), the number of
`ScanTime()` calls made so far, and the trace of the calls made. -/
structure JobWorld where
  fullSync : Bool
  gate : Int
  clock : Nat
  trace : List Event
deriving DecidableEq, Repr

/-- The job closure after the lock has been acquired and its release deferred:
from `// full sync` to the final `return nil`. -/
def startAutoSync.job.body (d : daemon) (dr : drive) (env : Env) (w : JobWorld) :
    Option GoError × JobWorld :=
  -- full sync
  if w.fullSync then
    let w1 := { w with trace := w.trace ++ [Event.FullSync dr.ID] }
    match env.FullSync with
    | some err => (some (.errorf "%v: performing full sync: %w" dr.ID err), w1)
    | none => (none, { w1 with fullSync := false })
  else
    -- do partial sync
    let w1 := { w with trace := w.trace ++ [Event.PartialSync dr.ID] }
    match env.PartialSync with
    | some err => (some (.errorf "%v: performing partial sync: %w" dr.ID err), w1)
    | none =>
      -- translate paths to scan task
      let task := getScanTask d dr env.paths w1.clock
      let w2 :=
        { w1 with clock := (getScanTask.run d dr env.paths w1.clock).clock,
                  trace := w1.trace ++ [Event.getScanTask env.paths] }
      -- move scans to processor
      if 0 < task.scans.length then
        let w3 := { w2 with trace := w2.trace ++ [Event.callback task.scans] }
        match env.callback task.scans with
        | some err =>
          (some (.errorfv "%v: moving scans to processor: %v: %w" dr.ID err
            (.sentinel .ErrFatal)), w3)
        | none => (none, w3)
      else (none, w2)

/-- The job closure `func() error` that `startAutoSync` hands to `newSyncJob`
for the drive `dr`. -/
def startAutoSync.job (d : daemon) (dr : drive) (env : Env) (w : JobWorld) :
    Option GoError × JobWorld :=
  -- acquire lock
  let w0 := { w with trace := w.trace ++ [Event.Acquire] }
  match env.Acquire with
  | some err =>
    (some (.errorfv "%v: acquiring sync semaphore: %v: %w" dr.ID err (.sentinel .ErrFatal)), w0)
  | none =>
    let r := startAutoSync.job.body d dr env { w0 with gate := w0.gate + 1 }
    -- defer d.limiter.Release(1)
    (r.1, { r.2 with gate := r.2.gate - 1, trace := r.2.trace ++ [Event.Release] })

/-- What the collaborators answer while `startAutoSync` sets the jobs up: the
error result of `d.store.PageToken(id)` and the error of the schedule parser
inside `c.AddJob`. -/
structure StartEnv where
  PageToken : String → Option GoError
  Parse : String → Option GoError

/-- One job set up by `startAutoSync`: its drive, the value its captured
variable `fullSync` has when the closure is created, and the job itself. -/
structure Scheduled where
  drive : drive
  fullSync : Bool
  job : syncJob Env JobWorld

/-- The loop `for _, drive := range d.drives` of `startAutoSync`. -/
def startAutoSync.loop (d : daemon) (senv : StartEnv) :
    List drive → Cron → List Scheduled → Except GoError (Cron × List Scheduled)
  | [], c, jobs => .ok (c, jobs)
  | dr :: rest, c, jobs =>
    -- full sync required?
    let required : Except GoError Bool :=
      match senv.PageToken dr.ID with
      | none => .ok false
      | some err =>
        if errors.Is err .ErrFullSync then .ok true
        else .error (.errorfv "%v: determining if full sync required: %v: %w" dr.ID err
          (.sentinel .ErrFatal))
    match required with
    | .error e => .error e
    | .ok fullSync =>
      -- create job
      let job : syncJob Env JobWorld := newSyncJob (startAutoSync.job d dr)
      match senv.Parse d.cronSchedule with
      | some err => .error (.errorf "%v: creating auto sync job for drive: %w" dr.ID err)
      | none =>
        startAutoSync.loop d senv rest c.Schedule.2
          (jobs ++ [{ drive := dr, fullSync := fullSync,
                      job := { job with jobID := c.Schedule.1 } }])

/-- Go `daemon.startAutoSync`. -/
def startAutoSync (d : daemon) (senv : StartEnv) : Except GoError (Cron × List Scheduled) :=
  match startAutoSync.loop d senv d.drives Cron.New [] with
  | .error e => .error e
  | .ok (c, jobs) => .ok (c.Start, jobs)

/-- The calls made by one execution of the job function of `dr` in world `w`
under the answers `env`. -/
def startAutoSync.job.calls (d : daemon) (dr : drive) (env : Env) (w : JobWorld) :
    List Event :=
  (startAutoSync.job d dr env { w with trace := [] }).2.trace

/-! ## Auxiliary definitions: what a loop of `getScanTask` keeps -/

/-- The rewritten paths for which a loop of `getScanTask` appends a scan when
it runs over `ps` with the map holding `seen`: first occurrences that the
filter accepts. -/
def getScanTask.kept (dr : drive) : List String → List String → List String
  | [], _ => []
  | p :: ps, seen =>
    if dr.Rewriter p ∈ seen then getScanTask.kept dr ps seen
    else if !dr.Allowed (dr.Rewriter p) then getScanTask.kept dr ps (dr.Rewriter p :: seen)
    else dr.Rewriter p :: getScanTask.kept dr ps (dr.Rewriter p :: seen)

/-- The map a loop of `getScanTask` ends with when it runs over `ps` with the
map holding `seen`. -/
def getScanTask.seenAfter (dr : drive) : List String → List String → List String
  | [], seen => seen
  | p :: ps, seen =>
    if dr.Rewriter p ∈ seen then getScanTask.seenAfter dr ps seen
    else getScanTask.seenAfter dr ps (dr.Rewriter p :: seen)

/-- The scans appended for the rewritten paths `rs`, the first of them at clock
reading `clock`. -/
def getScanTask.mkScans (d : daemon) (dr : drive) : Nat → List String → List Scan
  | _, [] => []
  | clock, r :: rs =>
    { Folder := filepath.Clean r, Priority := d.priority, Time := dr.ScanTime clock } ::
      getScanTask.mkScans d dr (clock + 1) rs

/-! ## Auxiliary definitions: outcomes and first executions -/

/-- The outcomes of a job function that `Run` counts against the retry budget:
a non-nil error that is retryable (first case of the `switch`) or that is not
fatal (last case). -/
def countsAgainstBudget : Option GoError → Bool
  | none => false
  | some err => isRetryable err || !errors.Is err .ErrFatal

/-- The jobs `startAutoSync` has scheduled when it returns no error. -/
def startAutoSync.scheduled (d : daemon) (senv : StartEnv) : List Scheduled :=
  match startAutoSync d senv with
  | .ok r => r.2
  | .error _ => []

/-- For each job scheduled by `startAutoSync`: the id of its drive, the value
of its captured variable `fullSync` at startup, and the calls its first
execution makes under the answers `env`. -/
def startAutoSync.firstRun (d : daemon) (senv : StartEnv) (env : Env) :
    List (String × Bool × List Event) :=
  (startAutoSync.scheduled d senv).map fun sch =>
    (sch.drive.ID, sch.fullSync,
      (sch.job.fn env { fullSync := sch.fullSync, gate := 0, clock := 0, trace := [] }).2.trace)

/-! ## The schedule of one job -/

/-- One firing of the schedule of a job: the scheduler invokes `Run` while the
entry of the job is among its entries, and nothing happens once the entry has
been removed. -/
def syncJob.fire {E W : Type} (s : syncJob E W) (c : Cron) (env : E) (w : W) : RunResult E W :=
  if s.jobID ∈ c.entries then s.Run c env w else { job := s, cron := c, world := w }

/-- Consecutive firings of the schedule of a job, one per element of `envs`. -/
def syncJob.fires {E W : Type} (s : syncJob E W) (c : Cron) (w : W) : List E → RunResult E W
  | [] => { job := s, cron := c, world := w }
  | env :: envs =>
    syncJob.fires (s.fire c env w).job (s.fire c env w).cron (s.fire c env w).world envs

/-- The state reached by a job that `newSyncJob` has created and that was
scheduled under the entry `id`, after the firings `envs`. -/
def syncJob.reached {E W : Type} (fn : E → W → Option GoError × W) (id : Nat) (c : Cron)
    (w : W) (envs : List E) : RunResult E W :=
  syncJob.fires { newSyncJob fn with jobID := id } c w envs

/-- The invariant of the sync-job state machine: `attempts` lies between 0 and
`maxSyncRetries`, and while the job is scheduled it is below `maxSyncRetries`
and equal to the number of accumulated errors. -/
def syncJob.Inv {E W : Type} (s : syncJob E W) (c : Cron) : Prop :=
  0 ≤ s.attempts ∧ s.attempts ≤ maxSyncRetries ∧
    (s.jobID ∈ c.entries →
      s.attempts < maxSyncRetries ∧ (s.errors.length : Int) = s.attempts)

/-- The third case of the `switch` in `Run`: the error matches
`autoscan.ErrFatal` and none of the retryable values. -/
def isFatalOutcome : Option GoError → Bool
  | none => false
  | some err => !isRetryable err && errors.Is err .ErrFatal

/-! ## The reference definition of the translation -/

/-- The rewritten forms of `NewFolders` followed by those of `OldFolders`, in
input order, each with the list it came from (`true` for `NewFolders`). -/
def reference.rewritten (dr : drive) (paths : Paths) : List (String × Bool) :=
  paths.NewFolders.map (fun p => (dr.Rewriter p, true)) ++
    paths.OldFolders.map (fun p => (dr.Rewriter p, false))

/-- Keep only the first occurrence of each rewritten path. -/
def reference.firstOccurrences : List (String × Bool) → List (String × Bool)
  | [] => []
  | x :: xs => x :: (reference.firstOccurrences xs).filter (fun y => y.1 != x.1)

/-- The kept paths: the first occurrences of the rewritten paths, without
those the `Allowed` predicate rejects. -/
def reference.kept (dr : drive) (paths : Paths) : List (String × Bool) :=
  (reference.firstOccurrences (reference.rewritten dr paths)).filter (fun x => dr.Allowed x.1)

/-- The reference definition of `getScanTask`: one scan per kept path, in
order, with the clean form of the path as `Folder`, the priority of the daemon
and the scan time read for it; `added` counts the kept paths that came from
`NewFolders`, `removed` those that came from `OldFolders`. -/
def getScanTask.reference (d : daemon) (dr : drive) (paths : Paths) (clock : Nat) : scanTask :=
  { scans := getScanTask.mkScans d dr clock ((reference.kept dr paths).map Prod.fst),
    added := ((reference.kept dr paths).filter (fun x => x.2)).length,
    removed := ((reference.kept dr paths).filter (fun x => !x.2)).length }

/-- The first occurrences in `xs` of the paths not in `seen`, without those
the `Allowed` predicate rejects. -/
def reference.keptFrom (dr : drive) (seen : List String) (xs : List (String × Bool)) :
    List (String × Bool) :=
  (reference.firstOccurrences xs).filter (fun y => decide (y.1 ∉ seen) && dr.Allowed y.1)

/-! ## Auxiliary definitions: kinds of calls, consecutive executions -/

/-- Whether a call is a call of the downstream callback. -/
def Event.isCallback : Event → Bool
  | .callback _ => true
  | _ => false

/-- Whether a call is a call of `getScanTask`. -/
def Event.isGetScanTask : Event → Bool
  | .getScanTask _ => true
  | _ => false

/-- The world after consecutive executions of the job function of `dr`, one
per element of `envs`. -/
def startAutoSync.job.executions (d : daemon) (dr : drive) (w : JobWorld) : List Env → JobWorld
  | [] => w
  | env :: envs =>
    startAutoSync.job.executions d dr (startAutoSync.job d dr env w).2 envs

/-! ## Concrete inputs -/

/-- A daemon with priority 3; its drives are passed to `getScanTask` directly. -/
def exampleDaemon : daemon := { cronSchedule := "@every 5m", priority := 3, drives := [] }

/-- A drive with the identity rewriter and a filter that allows every path. -/
def allowAllDrive : drive :=
  { ID := "A", Rewriter := fun p => p, Allowed := fun _ => true, ScanTime := fun k => k }

/-- A drive with the identity rewriter and a filter that rejects every path. -/
def denyAllDrive : drive :=
  { ID := "A", Rewriter := fun p => p, Allowed := fun _ => false, ScanTime := fun k => k }

/-- A drive with the identity rewriter whose filter allows exactly the
path `/media/`, written with its trailing separator. -/
def trailingSlashDrive : drive :=
  { ID := "A", Rewriter := fun p => p, Allowed := fun p => p == "/media/",
    ScanTime := fun k => k }

/-- A job whose function returns what the outside world scripts for the call,
and touches no state. -/
def scriptedJob (attempts : Int) (errs : List GoError) (jobID : Nat) :
    syncJob (Option GoError) Unit :=
  { attempts := attempts, errors := errs, jobID := jobID, fn := fun env w => (env, w) }

/-- A scheduler with the two entries 1 and 2. -/
def exampleCron : Cron := { entries := [1, 2], nextID := 2, running := true, removeCalls := [] }

/-- The answers of one execution in which every collaborator succeeds, the
hook has collected one new folder, and the store has a page token. -/
def quietEnv : Env :=
  { Acquire := none, FullSync := none, PartialSync := none,
    paths := { NewFolders := ["/x/y"], OldFolders := [] },
    callback := fun _ => none, PageToken := none }

/-- A world with the captured variable `fullSync` unset, two permits held by
other jobs, and nothing called yet. -/
def incrementalWorld : JobWorld := { fullSync := false, gate := 2, clock := 0, trace := [] }

/-- A world with the captured variable `fullSync` set. -/
def fullSyncWorld : JobWorld := { fullSync := true, gate := 2, clock := 0, trace := [] }

/-- The answers of an execution in which the downstream callback fails with
`lowe.ErrNetwork`, a value that `Run` would retry. -/
def rejectingEnv : Env := { quietEnv with callback := fun _ => some (.sentinel .ErrNetwork) }

/-- The job of `allowAllDrive` with entry 1, after `attempts` failed runs. -/
def exampleJob (attempts : Int) : syncJob Env JobWorld :=
  { attempts := attempts, errors := [], jobID := 1,
    fn := startAutoSync.job exampleDaemon allowAllDrive }

/-- The daemon of the examples with its one drive `A`. -/
def oneDriveDaemon : daemon :=
  { cronSchedule := "@every 5m", priority := 3, drives := [allowAllDrive] }

/-- A startup at which the store has no page token for any drive. -/
def noTokenStart : StartEnv :=
  { PageToken := fun _ => some (.sentinel .ErrFullSync), Parse := fun _ => none }

/-- A startup at which the store has a page token for every drive. -/
def tokenStart : StartEnv := { PageToken := fun _ => none, Parse := fun _ => none }

/-- The scheduler `startAutoSync` returns for `oneDriveDaemon`. -/
def oneDriveCron : Cron := { entries := [1], nextID := 1, running := true, removeCalls := [] }

/-- The job `startAutoSync` schedules for the drive of `oneDriveDaemon`. -/
def oneDriveScheduled (fullSync : Bool) : Scheduled :=
  { drive := allowAllDrive, fullSync := fullSync,
    job := { attempts := 0, errors := [], jobID := 1,
             fn := startAutoSync.job oneDriveDaemon allowAllDrive } }

/-- The answers of an execution in which the limiter fails. -/
def gateFailedEnv : Env := { quietEnv with Acquire := some (.sentinel (.other 0)) }

/-- The answers of an execution during which the store has no page token:
`PageToken` would return `ds.ErrFullSync`, and so does a partial sync. -/
def tokenLostEnv : Env :=
  { quietEnv with PageToken := some (.sentinel .ErrFullSync),
                  PartialSync := some (.sentinel .ErrFullSync) }

/-- Five failed outcomes in a row: retryable and unexpected errors mixed. -/
def fiveFailures : List (Option GoError) :=
  [some (.sentinel .ErrNetwork), some (.sentinel (.other 7)), some (.sentinel .ErrDataAnomaly),
    some (.sentinel (.other 1)), some (.sentinel .ErrInvalidCredentials)]

/-- The path `/a` reported both as a new and as an old folder. -/
def bothListsPaths : Paths := { NewFolders := ["/a"], OldFolders := ["/a"] }

/-- The path `/a` reported both as a new and as an old folder, and the old
folder `/a/`, which has the same clean form. -/
def sameCleanPaths : Paths := { NewFolders := ["/a"], OldFolders := ["/a", "/a/"] }

/-- A job function that returns what the outside world scripts for the call,
and touches no state. -/
def scriptedFn : Option GoError → Unit → Option GoError × Unit := fun env w => (env, w)

/-- The answers of an execution in which `FullSync` fails with a retryable
error. -/
def fullSyncFailedEnv : Env := { quietEnv with FullSync := some (.sentinel .ErrNetwork) }

/-- Two failed outcomes in a row. -/
def twoFailures : List (Option GoError) :=
  [some (.sentinel .ErrNetwork), some (.sentinel (.other 7))]

/-! # Properties -/

/-! ## `getScanTask`: the loops in closed form -/

theorem getScanTask.newLoop_eq (d : daemon) (dr : drive) (ps : List String)
    (st : getScanTask.State) :
    getScanTask.newLoop d dr ps st =
      { pathMap := getScanTask.seenAfter dr ps st.pathMap,
        task :=
          { scans := st.task.scans ++
              getScanTask.mkScans d dr st.clock (getScanTask.kept dr ps st.pathMap),
            added := st.task.added + (getScanTask.kept dr ps st.pathMap).length,
            removed := st.task.removed },
        clock := st.clock + (getScanTask.kept dr ps st.pathMap).length } := by
  induction ps generalizing st with
  | nil => simp [getScanTask.newLoop, getScanTask.kept, getScanTask.seenAfter, getScanTask.mkScans]
  | cons p ps ih =>
    by_cases hseen : dr.Rewriter p ∈ st.pathMap
    · simp [getScanTask.newLoop, getScanTask.kept, getScanTask.seenAfter, hseen, ih]
    · by_cases hal : dr.Allowed (dr.Rewriter p) = true
      · simp [getScanTask.newLoop, getScanTask.kept, getScanTask.seenAfter, hseen, hal, ih,
          getScanTask.mkScans]
        omega
      · simp [getScanTask.newLoop, getScanTask.kept, getScanTask.seenAfter, hseen, hal, ih]

theorem getScanTask.oldLoop_eq (d : daemon) (dr : drive) (ps : List String)
    (st : getScanTask.State) :
    getScanTask.oldLoop d dr ps st =
      { pathMap := getScanTask.seenAfter dr ps st.pathMap,
        task :=
          { scans := st.task.scans ++
              getScanTask.mkScans d dr st.clock (getScanTask.kept dr ps st.pathMap),
            added := st.task.added,
            removed := st.task.removed + (getScanTask.kept dr ps st.pathMap).length },
        clock := st.clock + (getScanTask.kept dr ps st.pathMap).length } := by
  induction ps generalizing st with
  | nil => simp [getScanTask.oldLoop, getScanTask.kept, getScanTask.seenAfter, getScanTask.mkScans]
  | cons p ps ih =>
    by_cases hseen : dr.Rewriter p ∈ st.pathMap
    · simp [getScanTask.oldLoop, getScanTask.kept, getScanTask.seenAfter, hseen, ih]
    · by_cases hal : dr.Allowed (dr.Rewriter p) = true
      · simp [getScanTask.oldLoop, getScanTask.kept, getScanTask.seenAfter, hseen, hal, ih,
          getScanTask.mkScans]
        omega
      · simp [getScanTask.oldLoop, getScanTask.kept, getScanTask.seenAfter, hseen, hal, ih]

theorem getScanTask.mkScans_append (d : daemon) (dr : drive) (clock : Nat)
    (rs ss : List String) :
    getScanTask.mkScans d dr clock (rs ++ ss) =
      getScanTask.mkScans d dr clock rs ++ getScanTask.mkScans d dr (clock + rs.length) ss := by
  induction rs generalizing clock with
  | nil => simp [getScanTask.mkScans]
  | cons r rs ih =>
    have h : clock + 1 + rs.length = clock + (rs.length + 1) := by omega
    simp [getScanTask.mkScans, ih, h]

theorem getScanTask.mkScans_folders (d : daemon) (dr : drive) (clock : Nat)
    (rs : List String) :
    (getScanTask.mkScans d dr clock rs).map Scan.Folder = rs.map filepath.Clean := by
  induction rs generalizing clock with
  | nil => simp [getScanTask.mkScans]
  | cons r rs ih => simp [getScanTask.mkScans, ih]

theorem getScanTask.mkScans_length (d : daemon) (dr : drive) (clock : Nat)
    (rs : List String) : (getScanTask.mkScans d dr clock rs).length = rs.length := by
  induction rs generalizing clock with
  | nil => simp [getScanTask.mkScans]
  | cons r rs ih => simp [getScanTask.mkScans, ih]

/-- The rewritten paths from which `getScanTask` builds its scans, in order:
those kept from `NewFolders`, then those kept from `OldFolders`. -/
theorem getScanTask_eq (d : daemon) (dr : drive) (paths : Paths) (clock : Nat) :
    getScanTask d dr paths clock =
      { scans := getScanTask.mkScans d dr clock
          (getScanTask.kept dr paths.NewFolders [] ++
            getScanTask.kept dr paths.OldFolders
              (getScanTask.seenAfter dr paths.NewFolders [])),
        added := (getScanTask.kept dr paths.NewFolders []).length,
        removed := (getScanTask.kept dr paths.OldFolders
              (getScanTask.seenAfter dr paths.NewFolders [])).length } := by
  simp [getScanTask, getScanTask.run, getScanTask.newLoop_eq, getScanTask.oldLoop_eq,
    getScanTask.mkScans_append]

/-! ## `getScanTask`: what is kept -/

theorem getScanTask.mem_seenAfter (dr : drive) (ps seen : List String) (x : String) :
    x ∈ getScanTask.seenAfter dr ps seen ↔ x ∈ seen ∨ ∃ p ∈ ps, dr.Rewriter p = x := by
  induction ps generalizing seen with
  | nil => simp [getScanTask.seenAfter]
  | cons p ps ih =>
    by_cases hseen : dr.Rewriter p ∈ seen
    · simp only [getScanTask.seenAfter, hseen, if_true, ih, List.mem_cons, exists_eq_or_imp]
      constructor
      · rintro (h | h)
        · exact Or.inl h
        · exact Or.inr (Or.inr h)
      · rintro (h | h | h)
        · exact Or.inl h
        · exact Or.inl (h ▸ hseen)
        · exact Or.inr h
    · simp only [getScanTask.seenAfter, hseen, if_false, ih, List.mem_cons, exists_eq_or_imp]
      constructor
      · rintro ((h | h) | h)
        · exact Or.inr (Or.inl h.symm)
        · exact Or.inl h
        · exact Or.inr (Or.inr h)
      · rintro (h | h | h)
        · exact Or.inl (Or.inr h)
        · exact Or.inl (Or.inl h.symm)
        · exact Or.inr h

theorem getScanTask.mem_kept (dr : drive) (ps seen : List String) (r : String) :
    r ∈ getScanTask.kept dr ps seen ↔
      r ∉ seen ∧ dr.Allowed r = true ∧ ∃ p ∈ ps, dr.Rewriter p = r := by
  induction ps generalizing seen with
  | nil => simp [getScanTask.kept]
  | cons p ps ih =>
    by_cases hseen : dr.Rewriter p ∈ seen
    · simp only [getScanTask.kept, hseen, if_true, ih, List.mem_cons, exists_eq_or_imp]
      constructor
      · rintro ⟨h1, h2, h3⟩
        exact ⟨h1, h2, Or.inr h3⟩
      · rintro ⟨h1, h2, h3 | h3⟩
        · exact absurd (h3 ▸ hseen) h1
        · exact ⟨h1, h2, h3⟩
    · by_cases hal : dr.Allowed (dr.Rewriter p) = true
      · simp only [getScanTask.kept, hseen, hal, if_false, Bool.not_true, List.mem_cons, ih,
          exists_eq_or_imp, not_or, Bool.false_eq_true]
        constructor
        · rintro (h | ⟨⟨h0, h1⟩, h2, h3⟩)
          · subst h
            exact ⟨hseen, hal, Or.inl rfl⟩
          · exact ⟨h1, h2, Or.inr h3⟩
        · rintro ⟨h1, h2, h3 | h3⟩
          · exact Or.inl h3.symm
          · by_cases hr : r = dr.Rewriter p
            · exact Or.inl hr
            · exact Or.inr ⟨⟨hr, h1⟩, h2, h3⟩
      · have hal2 : dr.Allowed (dr.Rewriter p) = false := by simpa using hal
        simp only [getScanTask.kept, hseen, hal2, if_false, Bool.not_false, if_true,
          List.mem_cons, ih, exists_eq_or_imp, not_or]
        constructor
        · rintro ⟨⟨h0, h1⟩, h2, h3⟩
          exact ⟨h1, h2, Or.inr h3⟩
        · rintro ⟨h1, h2, h3 | h3⟩
          · rw [← h3, hal2] at h2
            exact absurd h2 (by simp)
          · refine ⟨⟨?_, h1⟩, h2, h3⟩
            intro hr
            rw [hr, hal2] at h2
            exact absurd h2 (by simp)

theorem getScanTask.kept_nodup (dr : drive) (ps seen : List String) :
    (getScanTask.kept dr ps seen).Nodup := by
  induction ps generalizing seen with
  | nil => simp [getScanTask.kept]
  | cons p ps ih =>
    by_cases hseen : dr.Rewriter p ∈ seen
    · simp [getScanTask.kept, hseen, ih]
    · by_cases hal : dr.Allowed (dr.Rewriter p) = true
      · simp only [getScanTask.kept, hseen, hal, if_false, Bool.not_true, List.nodup_cons,
          Bool.false_eq_true]
        refine ⟨?_, ih _⟩
        intro hmem
        exact ((getScanTask.mem_kept dr ps _ _).1 hmem).1 (List.mem_cons_self _ _)
      · have hal2 : dr.Allowed (dr.Rewriter p) = false := by simpa using hal
        simp [getScanTask.kept, hseen, hal2, ih]

/-- The rewritten paths behind the scans of one translation are pairwise
distinct. -/
theorem getScanTask.kept_all_nodup (dr : drive) (paths : Paths) :
    (getScanTask.kept dr paths.NewFolders [] ++
      getScanTask.kept dr paths.OldFolders
        (getScanTask.seenAfter dr paths.NewFolders [])).Nodup := by
  rw [List.nodup_append]
  refine ⟨getScanTask.kept_nodup _ _ _, getScanTask.kept_nodup _ _ _, ?_⟩
  intro r hnew hold
  have h1 := (getScanTask.mem_kept dr _ _ r).1 hnew
  have h2 := (getScanTask.mem_kept dr _ _ r).1 hold
  exact h2.1 ((getScanTask.mem_seenAfter dr _ _ r).2 (Or.inr h1.2.2))

/-- Every rewritten path behind a scan is the rewritten form of an input path
and is accepted by the filter. -/
theorem getScanTask.kept_all_mem (dr : drive) (paths : Paths) (r : String)
    (h : r ∈ getScanTask.kept dr paths.NewFolders [] ++
      getScanTask.kept dr paths.OldFolders
        (getScanTask.seenAfter dr paths.NewFolders [])) :
    dr.Allowed r = true ∧ ∃ p ∈ paths.NewFolders ++ paths.OldFolders, dr.Rewriter p = r := by
  rcases List.mem_append.1 h with h | h
  · obtain ⟨_, h2, p, hp, hr⟩ := (getScanTask.mem_kept dr _ _ r).1 h
    exact ⟨h2, p, List.mem_append_left _ hp, hr⟩
  · obtain ⟨_, h2, p, hp, hr⟩ := (getScanTask.mem_kept dr _ _ r).1 h
    exact ⟨h2, p, List.mem_append_right _ hp, hr⟩

/-! ## `getScanTask`: removing the paths the filter rejects -/

theorem getScanTask.kept_filter (dr : drive) (ps seen seen2 : List String)
    (hagree : ∀ x, dr.Allowed x = true → (x ∈ seen ↔ x ∈ seen2)) :
    getScanTask.kept dr (ps.filter (fun p => dr.Allowed (dr.Rewriter p))) seen2 =
      getScanTask.kept dr ps seen := by
  induction ps generalizing seen seen2 with
  | nil => simp [getScanTask.kept]
  | cons p ps ih =>
    by_cases hal : dr.Allowed (dr.Rewriter p) = true
    · have hiff := hagree _ hal
      by_cases hseen : dr.Rewriter p ∈ seen
      · have hseen2 := hiff.1 hseen
        simp only [List.filter_cons, hal, if_true, getScanTask.kept, hseen, hseen2]
        exact ih seen seen2 hagree
      · have hseen2 : dr.Rewriter p ∉ seen2 := fun h => hseen (hiff.2 h)
        simp only [List.filter_cons, hal, if_true, getScanTask.kept, hseen, hseen2, if_false,
          Bool.not_true, Bool.false_eq_true]
        rw [ih (dr.Rewriter p :: seen) (dr.Rewriter p :: seen2)]
        intro x hx
        simp only [List.mem_cons, hagree x hx]
    · have hal2 : dr.Allowed (dr.Rewriter p) = false := by simpa using hal
      by_cases hseen : dr.Rewriter p ∈ seen
      · simp only [List.filter_cons, hal2, getScanTask.kept, hseen, if_true, Bool.false_eq_true,
          if_false]
        exact ih seen seen2 hagree
      · simp only [List.filter_cons, hal2, getScanTask.kept, hseen, if_true, Bool.false_eq_true,
          if_false, Bool.not_false]
        apply ih (dr.Rewriter p :: seen) seen2
        intro x hx
        have hne : x ≠ dr.Rewriter p := by
          intro h
          rw [h, hal2] at hx
          exact absurd hx (by simp)
        simp only [List.mem_cons, hne, false_or, hagree x hx]

theorem getScanTask.seenAfter_filter (dr : drive) (ps : List String) (x : String)
    (hx : dr.Allowed x = true) :
    x ∈ getScanTask.seenAfter dr ps [] ↔
      x ∈ getScanTask.seenAfter dr (ps.filter (fun p => dr.Allowed (dr.Rewriter p))) [] := by
  simp only [getScanTask.mem_seenAfter, List.not_mem_nil, false_or, List.mem_filter]
  constructor
  · rintro ⟨p, hp, rfl⟩
    exact ⟨p, ⟨hp, hx⟩, rfl⟩
  · rintro ⟨p, ⟨hp, _⟩, rfl⟩
    exact ⟨p, hp, rfl⟩

/-! ## C1: no two scans with the same folder -/

/-- C1, as stated, fails: with the identity rewriter and a filter that allows
everything, the new folders `/media/tv` and `/media/tv/` are two distinct
rewritten paths, and both scans carry the folder `/media/tv`. -/
theorem getScanTask_folders_not_nodup :
    ¬ ((getScanTask exampleDaemon allowAllDrive
        { NewFolders := ["/media/tv", "/media/tv/"], OldFolders := [] } 0).scans.map
          Scan.Folder).Nodup := by
  decide

/-- C1, amended: when `filepath.Clean` sends no two distinct rewritten input
paths to the same string, the scans returned by `getScanTask` contain no two
entries with the same `Folder`. -/
theorem getScanTask_folders_nodup (d : daemon) (dr : drive) (paths : Paths) (clock : Nat)
    (hinj : ∀ p ∈ paths.NewFolders ++ paths.OldFolders,
      ∀ q ∈ paths.NewFolders ++ paths.OldFolders,
        filepath.Clean (dr.Rewriter p) = filepath.Clean (dr.Rewriter q) →
          dr.Rewriter p = dr.Rewriter q) :
    ((getScanTask d dr paths clock).scans.map Scan.Folder).Nodup := by
  rw [getScanTask_eq, getScanTask.mkScans_folders]
  apply List.Nodup.map_on _ (getScanTask.kept_all_nodup dr paths)
  intro x hx y hy hxy
  obtain ⟨_, p, hp, rfl⟩ := getScanTask.kept_all_mem dr paths x hx
  obtain ⟨_, q, hq, rfl⟩ := getScanTask.kept_all_mem dr paths y hy
  exact hinj p hp q hq hxy

/-- C1, amended, at a concrete input: a folder listed twice among the new
folders and once among the old ones yields scans with distinct folders. -/
theorem getScanTask_folders_nodup_witness :
    ((getScanTask exampleDaemon allowAllDrive
        { NewFolders := ["/x/y", "/x/y"], OldFolders := ["/x/z", "/x/y"] } 0).scans.map
          Scan.Folder).Nodup :=
  getScanTask_folders_nodup exampleDaemon allowAllDrive
    { NewFolders := ["/x/y", "/x/y"], OldFolders := ["/x/z", "/x/y"] } 0 (by decide)

/-! ## C5: a path in both lists -/

theorem getScanTask.take_added (d : daemon) (dr : drive) (paths : Paths) (clock : Nat) :
    ((getScanTask d dr paths clock).scans.take (getScanTask d dr paths clock).added).map
        Scan.Folder =
      (getScanTask.kept dr paths.NewFolders []).map filepath.Clean := by
  rw [getScanTask_eq]
  simp only [getScanTask.mkScans_append]
  rw [List.take_left' (getScanTask.mkScans_length _ _ _ _), getScanTask.mkScans_folders]

theorem getScanTask.drop_added (d : daemon) (dr : drive) (paths : Paths) (clock : Nat) :
    ((getScanTask d dr paths clock).scans.drop (getScanTask d dr paths clock).added).map
        Scan.Folder =
      (getScanTask.kept dr paths.OldFolders
        (getScanTask.seenAfter dr paths.NewFolders [])).map filepath.Clean := by
  rw [getScanTask_eq]
  simp only [getScanTask.mkScans_append]
  rw [List.drop_left' (getScanTask.mkScans_length _ _ _ _), getScanTask.mkScans_folders]

/-- C5, as stated, fails in two ways. When the filter rejects the path, a path
listed in both `NewFolders` and `OldFolders` gets no scan at all; and when
another input path has a different rewritten form with the same clean form,
two scans carry its folder. -/
theorem getScanTask_both_lists_not_exactly_one :
    ("/a" ∈ bothListsPaths.NewFolders ∧ "/a" ∈ bothListsPaths.OldFolders ∧
      ((getScanTask exampleDaemon denyAllDrive bothListsPaths 0).scans.map Scan.Folder).count
          (filepath.Clean (denyAllDrive.Rewriter "/a")) = 0) ∧
    ("/a" ∈ sameCleanPaths.NewFolders ∧ "/a" ∈ sameCleanPaths.OldFolders ∧
      ((getScanTask exampleDaemon allowAllDrive sameCleanPaths 0).scans.map Scan.Folder).count
          (filepath.Clean (allowAllDrive.Rewriter "/a")) = 2) := by
  decide

/-- C5, amended: if a raw path `p` occurs in both `NewFolders` and
`OldFolders`, the filter accepts its rewritten path, and no input path has a
different rewritten path with the same clean form, then exactly one scan has
the folder of `p`, and it is attributed to "added": it lies among the first
`task.added` scans and not among the `task.removed` scans after them. -/
theorem getScanTask_both_lists_added (d : daemon) (dr : drive) (paths : Paths) (clock : Nat)
    (p : String) (hnew : p ∈ paths.NewFolders) (_hold : p ∈ paths.OldFolders)
    (hal : dr.Allowed (dr.Rewriter p) = true)
    (hclean : ∀ q ∈ paths.NewFolders ++ paths.OldFolders,
      filepath.Clean (dr.Rewriter q) = filepath.Clean (dr.Rewriter p) →
        dr.Rewriter q = dr.Rewriter p) :
    ((getScanTask d dr paths clock).scans.map Scan.Folder).count
        (filepath.Clean (dr.Rewriter p)) = 1 ∧
    filepath.Clean (dr.Rewriter p) ∈
      ((getScanTask d dr paths clock).scans.take (getScanTask d dr paths clock).added).map
        Scan.Folder ∧
    filepath.Clean (dr.Rewriter p) ∉
      ((getScanTask d dr paths clock).scans.drop (getScanTask d dr paths clock).added).map
        Scan.Folder := by
  have hkept : dr.Rewriter p ∈ getScanTask.kept dr paths.NewFolders [] :=
    (getScanTask.mem_kept dr _ _ _).2 ⟨List.not_mem_nil _, hal, p, hnew, rfl⟩
  refine ⟨?_, ?_, ?_⟩
  · rw [getScanTask_eq, getScanTask.mkScans_folders, List.count_eq_countP, List.countP_map]
    have hcongr : ∀ x ∈ getScanTask.kept dr paths.NewFolders [] ++
        getScanTask.kept dr paths.OldFolders (getScanTask.seenAfter dr paths.NewFolders []),
        (((fun x => x == filepath.Clean (dr.Rewriter p)) ∘ filepath.Clean) x = true ↔
          (fun x => x == dr.Rewriter p) x = true) := by
      intro x hx
      obtain ⟨_, q, hq, rfl⟩ := getScanTask.kept_all_mem dr paths x hx
      simp only [Function.comp, beq_iff_eq]
      exact ⟨hclean q hq, fun h => by rw [h]⟩
    rw [List.countP_congr hcongr, ← List.count_eq_countP]
    exact List.count_eq_one_of_mem (getScanTask.kept_all_nodup dr paths)
      (List.mem_append_left _ hkept)
  · rw [getScanTask.take_added]
    exact List.mem_map_of_mem _ hkept
  · rw [getScanTask.drop_added]
    intro hmem
    obtain ⟨r, hr, hrp⟩ := List.mem_map.1 hmem
    obtain ⟨hnot, _, q, hq, hqr⟩ := (getScanTask.mem_kept dr _ _ r).1 hr
    have hreq : r = dr.Rewriter p := by
      rw [← hqr]
      exact hclean q (List.mem_append_right _ hq) (by rw [hqr, hrp])
    exact hnot ((getScanTask.mem_seenAfter dr _ _ r).2 (Or.inr ⟨p, hnew, hreq.symm⟩))

/-- C5, amended, at a concrete input: `/x/y` is in both lists. -/
theorem getScanTask_both_lists_added_witness :
    ((getScanTask exampleDaemon allowAllDrive
        { NewFolders := ["/x/y", "/x/w"], OldFolders := ["/x/z", "/x/y"] } 0).scans.map
          Scan.Folder).count (filepath.Clean (allowAllDrive.Rewriter "/x/y")) = 1 ∧
    filepath.Clean (allowAllDrive.Rewriter "/x/y") ∈
      ((getScanTask exampleDaemon allowAllDrive
        { NewFolders := ["/x/y", "/x/w"], OldFolders := ["/x/z", "/x/y"] } 0).scans.take
          (getScanTask exampleDaemon allowAllDrive
            { NewFolders := ["/x/y", "/x/w"], OldFolders := ["/x/z", "/x/y"] } 0).added).map
        Scan.Folder ∧
    filepath.Clean (allowAllDrive.Rewriter "/x/y") ∉
      ((getScanTask exampleDaemon allowAllDrive
        { NewFolders := ["/x/y", "/x/w"], OldFolders := ["/x/z", "/x/y"] } 0).scans.drop
          (getScanTask exampleDaemon allowAllDrive
            { NewFolders := ["/x/y", "/x/w"], OldFolders := ["/x/z", "/x/y"] } 0).added).map
        Scan.Folder :=
  getScanTask_both_lists_added exampleDaemon allowAllDrive
    { NewFolders := ["/x/y", "/x/w"], OldFolders := ["/x/z", "/x/y"] } 0 "/x/y"
    (by decide) (by decide) (by decide) (by decide)

/-! ## C6: paths the filter rejects -/

/-- C6, as stated, fails: the filter is asked about the rewritten path
`/media/`, which it allows, and the scan carries the folder `/media`, which
it rejects. -/
theorem getScanTask_folder_not_allowed :
    ¬ ∀ s ∈ (getScanTask exampleDaemon trailingSlashDrive
        { NewFolders := ["/media/"], OldFolders := [] } 0).scans,
      trailingSlashDrive.Allowed s.Folder = true := by
  decide

/-- C6, amended: every scan returned by `getScanTask` has as `Folder` the
clean form of a rewritten input path that the filter accepts, and removing
from `NewFolders` and `OldFolders` every path whose rewritten form the filter
rejects leaves `task.added`, `task.removed` and the scans unchanged. -/
theorem getScanTask_rejected_paths (d : daemon) (dr : drive) (paths : Paths) (clock : Nat) :
    (∀ s ∈ (getScanTask d dr paths clock).scans,
      ∃ p ∈ paths.NewFolders ++ paths.OldFolders,
        dr.Allowed (dr.Rewriter p) = true ∧ s.Folder = filepath.Clean (dr.Rewriter p)) ∧
    getScanTask d dr
      { NewFolders := paths.NewFolders.filter (fun p => dr.Allowed (dr.Rewriter p)),
        OldFolders := paths.OldFolders.filter (fun p => dr.Allowed (dr.Rewriter p)) } clock =
      getScanTask d dr paths clock := by
  constructor
  · intro s hs
    have hf : s.Folder ∈ (getScanTask d dr paths clock).scans.map Scan.Folder :=
      List.mem_map_of_mem _ hs
    rw [getScanTask_eq, getScanTask.mkScans_folders] at hf
    obtain ⟨r, hr, hrs⟩ := List.mem_map.1 hf
    obtain ⟨hal, p, hp, hpr⟩ := getScanTask.kept_all_mem dr paths r hr
    exact ⟨p, hp, by rw [hpr]; exact hal, by rw [hpr]; exact hrs.symm⟩
  · have hnew := getScanTask.kept_filter dr paths.NewFolders [] [] (fun _ _ => Iff.rfl)
    have hold := getScanTask.kept_filter dr paths.OldFolders
      (getScanTask.seenAfter dr paths.NewFolders [])
      (getScanTask.seenAfter dr
        (paths.NewFolders.filter (fun p => dr.Allowed (dr.Rewriter p))) [])
      (fun x hx => getScanTask.seenAfter_filter dr paths.NewFolders x hx)
    rw [getScanTask_eq, getScanTask_eq]
    simp only [hnew, hold]

/-! ## `syncJob.Run`: one call -/

theorem wrapInt_small (a : Int) (h0 : -9223372036854775808 ≤ a)
    (h1 : a < 9223372036854775808) : wrapInt a = a := by
  unfold wrapInt
  omega

theorem Cron.not_mem_Remove (c : Cron) (id : Nat) : id ∉ (c.Remove id).entries := by
  simp [Cron.Remove]

theorem syncJob.Run_success {E W : Type} (s : syncJob E W) (c : Cron) (env : E) (w : W)
    (h : (s.fn env w).1 = none) :
    s.Run c env w =
      { job := { s with attempts := 0, errors := [] }, cron := c, world := (s.fn env w).2 } := by
  simp [syncJob.Run, h]

theorem syncJob.Run_fatal {E W : Type} (s : syncJob E W) (c : Cron) (env : E) (w : W)
    (err : GoError) (h : (s.fn env w).1 = some err) (hfatal : errors.Is err .ErrFatal = true)
    (hnot : isRetryable err = false) :
    s.Run c env w =
      { job := { s with attempts := wrapInt (s.attempts + 1) }, cron := c.Remove s.jobID,
        world := (s.fn env w).2 } := by
  simp only [isRetryable] at hnot
  simp [syncJob.Run, h, hnot, hfatal]

theorem syncJob.Run_counted {E W : Type} (s : syncJob E W) (c : Cron) (env : E) (w : W)
    (h : countsAgainstBudget (s.fn env w).1 = true) :
    ∃ err, (s.fn env w).1 = some err ∧
      s.Run c env w =
        syncJob.abortIfMax
          { s with attempts := wrapInt (s.attempts + 1), errors := s.errors ++ [err] } c
          (s.fn env w).2 := by
  cases hres : (s.fn env w).1 with
  | none => simp [hres, countsAgainstBudget] at h
  | some err =>
    refine ⟨err, rfl, ?_⟩
    simp only [hres, countsAgainstBudget, isRetryable, Bool.or_eq_true, Bool.not_eq_true',
      Bool.or_assoc] at h
    by_cases hr : (errors.Is err .ErrInvalidCredentials || errors.Is err .ErrDataAnomaly ||
        errors.Is err .ErrNetwork) = true
    · simp [syncJob.Run, hres, hr]
    · have hr2 : (errors.Is err .ErrInvalidCredentials || errors.Is err .ErrDataAnomaly ||
          errors.Is err .ErrNetwork) = false := by simpa using hr
      have hf : errors.Is err .ErrFatal = false := by
        simp only [Bool.or_eq_false_iff] at hr2
        rcases h with h | h | h | h
        · simp [hr2.1.1] at h
        · simp [hr2.1.2] at h
        · simp [hr2.2] at h
        · exact h
      simp [syncJob.Run, hres, hr2, hf]

/-! ## C2: a fatal outcome -/

/-- C2, as stated, fails: an error that matches both `lowe.ErrNetwork` and
`autoscan.ErrFatal` is taken by the retryable case, which the `switch` tests
first, and on the first execution the job stays scheduled. -/
theorem Run_fatal_and_retryable_not_removed :
    errors.Is (.join (.sentinel .ErrNetwork) (.sentinel .ErrFatal)) .ErrFatal = true ∧
    ((scriptedJob 0 [] 1).Run exampleCron
        (some (.join (.sentinel .ErrNetwork) (.sentinel .ErrFatal))) ()).cron = exampleCron ∧
    1 ∈ ((scriptedJob 0 [] 1).Run exampleCron
        (some (.join (.sentinel .ErrNetwork) (.sentinel .ErrFatal))) ()).cron.entries := by
  decide

/-- C2, amended: for every `syncJob` state, whatever the attempt count, when
the job function returns an error that matches `autoscan.ErrFatal` and none of
the three retryable values, a single call of `Run` calls `cron.Remove` on the
entry of the job, which is then no longer scheduled. -/
theorem Run_fatal_stops {E W : Type} (s : syncJob E W) (c : Cron) (env : E) (w : W)
    (err : GoError) (h : (s.fn env w).1 = some err) (hfatal : errors.Is err .ErrFatal = true)
    (hnot : isRetryable err = false) :
    (s.Run c env w).cron = c.Remove s.jobID ∧ s.jobID ∉ (s.Run c env w).cron.entries := by
  rw [syncJob.Run_fatal s c env w err h hfatal hnot]
  exact ⟨rfl, Cron.not_mem_Remove c s.jobID⟩

/-- C2, amended, on the very first execution of a job with entry 1. -/
theorem Run_fatal_stops_witness :
    ((scriptedJob 0 [] 1).Run exampleCron (some (.sentinel .ErrFatal)) ()).cron =
        exampleCron.Remove (scriptedJob 0 [] 1).jobID ∧
      (scriptedJob 0 [] 1).jobID ∉
        ((scriptedJob 0 [] 1).Run exampleCron (some (.sentinel .ErrFatal)) ()).cron.entries :=
  Run_fatal_stops (scriptedJob 0 [] 1) exampleCron (some (.sentinel .ErrFatal)) ()
    (.sentinel .ErrFatal) rfl (by decide) (by decide)

/-! ## C4: a successful run -/

/-- C4: for every `syncJob` state, a call of `Run` whose job function returns
nil leaves `attempts = 0` and the errors list empty, and leaves the scheduler
as it was (no `Remove`, the same entries). -/
theorem Run_success_resets {E W : Type} (s : syncJob E W) (c : Cron) (env : E) (w : W)
    (h : (s.fn env w).1 = none) :
    (s.Run c env w).job.attempts = 0 ∧ (s.Run c env w).job.errors = [] ∧
      (s.Run c env w).cron = c := by
  rw [syncJob.Run_success s c env w h]
  exact ⟨rfl, rfl, rfl⟩

/-- C4 after four consecutive failures: attempts is 4 and four errors are
held when the job function succeeds. -/
theorem Run_success_resets_witness :
    ((scriptedJob 4 [.sentinel .ErrNetwork, .sentinel (.other 0), .sentinel .ErrNetwork,
        .sentinel .ErrDataAnomaly] 1).Run exampleCron none ()).job.attempts = 0 ∧
      ((scriptedJob 4 [.sentinel .ErrNetwork, .sentinel (.other 0), .sentinel .ErrNetwork,
        .sentinel .ErrDataAnomaly] 1).Run exampleCron none ()).job.errors = [] ∧
      ((scriptedJob 4 [.sentinel .ErrNetwork, .sentinel (.other 0), .sentinel .ErrNetwork,
        .sentinel .ErrDataAnomaly] 1).Run exampleCron none ()).cron = exampleCron :=
  Run_success_resets (scriptedJob 4 [.sentinel .ErrNetwork, .sentinel (.other 0),
    .sentinel .ErrNetwork, .sentinel .ErrDataAnomaly] 1) exampleCron none () rfl

/-! ## C3: the retry budget -/

theorem syncJob.runs_append {E W : Type} (s : syncJob E W) (c : Cron) (w : W)
    (xs ys : List E) :
    s.runs c w (xs ++ ys) =
      (s.runs c w xs).job.runs (s.runs c w xs).cron (s.runs c w xs).world ys := by
  induction xs generalizing s c w with
  | nil => rfl
  | cons x xs ih => simp [syncJob.runs, ih]

theorem syncJob.outcomes_append {E W : Type} (s : syncJob E W) (c : Cron) (w : W)
    (xs ys : List E) :
    s.outcomes c w (xs ++ ys) =
      s.outcomes c w xs ++
        (s.runs c w xs).job.outcomes (s.runs c w xs).cron (s.runs c w xs).world ys := by
  induction xs generalizing s c w with
  | nil => rfl
  | cons x xs ih => simp [syncJob.runs, syncJob.outcomes, ih]

/-- While the budget is not used up, failed runs leave the scheduler alone and
count one attempt each. -/
theorem syncJob.runs_counted {E W : Type} (s : syncJob E W) (c : Cron) (w : W)
    (envs : List E) (a : Nat) (ha : s.attempts = a) (hlt : a + envs.length < 5)
    (hfail : ∀ o ∈ s.outcomes c w envs, countsAgainstBudget o = true) :
    (s.runs c w envs).cron = c ∧ (s.runs c w envs).job.attempts = a + envs.length ∧
      (s.runs c w envs).job.jobID = s.jobID ∧ (s.runs c w envs).job.fn = s.fn ∧
      (s.runs c w envs).job.errors.length = s.errors.length + envs.length := by
  induction envs generalizing s c w a with
  | nil => simp [syncJob.runs, ha]
  | cons env envs ih =>
    simp only [syncJob.outcomes, List.mem_cons, forall_eq_or_imp] at hfail
    obtain ⟨err, _, hrun⟩ := syncJob.Run_counted s c env w hfail.1
    simp only [List.length_cons] at hlt
    have hw : wrapInt (s.attempts + 1) = (a : Int) + 1 := by
      rw [ha]
      exact wrapInt_small _ (by omega) (by omega)
    have hrun2 : s.Run c env w =
        { job := { s with attempts := (a : Int) + 1, errors := s.errors ++ [err] }, cron := c,
          world := (s.fn env w).2 } := by
      rw [hrun, syncJob.abortIfMax, hw]
      have : ¬ ((a : Int) + 1 ≥ maxSyncRetries) := by
        simp only [maxSyncRetries]
        omega
      simp [this]
    have hrest := hfail.2
    rw [hrun2] at hrest
    simp only [syncJob.runs, hrun2]
    have := ih { s with attempts := (a : Int) + 1, errors := s.errors ++ [err] } c
      (s.fn env w).2 (a + 1) (by push_cast; rfl) (by omega) hrest
    obtain ⟨h1, h2, h3, h4, h5⟩ := this
    dsimp only at h5
    simp only [List.length_append, List.length_cons, List.length_nil] at h5
    refine ⟨h1, ?_, h3, h4, ?_⟩
    · rw [h2]
      simp only [List.length_cons]
      push_cast
      omega
    · simp only [List.length_cons]
      omega

/-- C3: starting from any state with `attempts = 0`, after `N` consecutive
calls of `Run` in which the job function returns a retryable or unexpected
error, `attempts = N`; for every `N < 5` the scheduler is untouched (no call
of `Remove`, the job still scheduled); and at `N = 5` the scheduler is
untouched after the first four calls and the fifth calls `cron.Remove` on the
entry of the job, which is then no longer scheduled. Retryable and unexpected
errors count alike. -/
theorem Run_retry_budget {E W : Type} (s : syncJob E W) (c : Cron) (w : W) (envs : List E)
    (h0 : s.attempts = 0) (hlen : envs.length ≤ 5)
    (hfail : ∀ o ∈ s.outcomes c w envs, countsAgainstBudget o = true) :
    (envs.length < 5 →
      (s.runs c w envs).cron = c ∧ (s.runs c w envs).job.attempts = envs.length) ∧
    (envs.length = 5 →
      (s.runs c w (envs.take 4)).cron = c ∧
      (s.runs c w envs).cron = c.Remove s.jobID ∧
      s.jobID ∉ (s.runs c w envs).cron.entries ∧
      (s.runs c w envs).job.attempts = 5) := by
  constructor
  · intro hlt
    have := syncJob.runs_counted s c w envs 0 (by simpa using h0) (by omega) hfail
    exact ⟨this.1, by simpa using this.2.1⟩
  · intro h5
    have hsplit : envs = envs.take 4 ++ envs.drop 4 := (List.take_append_drop 4 envs).symm
    have hdrop : (envs.drop 4).length = 1 := by simp [h5]
    obtain ⟨last, hlast⟩ := List.length_eq_one.1 hdrop
    have htake : (envs.take 4).length = 4 := by simp [h5]
    rw [hsplit, syncJob.outcomes_append] at hfail
    have hfirst := syncJob.runs_counted s c w (envs.take 4) 0 (by simpa using h0)
      (by omega) (fun o ho => hfail o (List.mem_append_left _ ho))
    have hrest : ∀ o ∈ (s.runs c w (envs.take 4)).job.outcomes (s.runs c w (envs.take 4)).cron
        (s.runs c w (envs.take 4)).world (envs.drop 4), countsAgainstBudget o = true :=
      fun o ho => hfail o (List.mem_append_right _ ho)
    rw [hlast] at hrest
    simp only [syncJob.outcomes, List.mem_singleton, forall_eq] at hrest
    obtain ⟨err, _, hrun⟩ := syncJob.Run_counted _ (s.runs c w (envs.take 4)).cron last _ hrest
    have hlastrun : (s.runs c w envs) =
        (s.runs c w (envs.take 4)).job.Run (s.runs c w (envs.take 4)).cron last
          (s.runs c w (envs.take 4)).world := by
      conv_lhs => rw [hsplit, syncJob.runs_append, hlast]
      rfl
    have hatt : (s.runs c w (envs.take 4)).job.attempts = 4 := by
      rw [hfirst.2.1, htake]
      rfl
    have hw : wrapInt ((s.runs c w (envs.take 4)).job.attempts + 1) = 5 := by
      rw [hatt]
      exact wrapInt_small _ (by omega) (by omega)
    rw [hlastrun, hrun, syncJob.abortIfMax, hw, hfirst.1, hfirst.2.2.1]
    simp only [maxSyncRetries, ge_iff_le, le_refl, if_true]
    exact ⟨trivial, trivial, Cron.not_mem_Remove c s.jobID, trivial⟩

/-- C3 at a concrete run: five failures in a row, retryable and unexpected
ones mixed, of the job with entry 1. -/
theorem Run_retry_budget_witness :
    (fiveFailures.length < 5 →
      ((scriptedJob 0 [] 1).runs exampleCron () fiveFailures).cron = exampleCron ∧
      ((scriptedJob 0 [] 1).runs exampleCron () fiveFailures).job.attempts =
        fiveFailures.length) ∧
    (fiveFailures.length = 5 →
      ((scriptedJob 0 [] 1).runs exampleCron () (fiveFailures.take 4)).cron = exampleCron ∧
      ((scriptedJob 0 [] 1).runs exampleCron () fiveFailures).cron =
        exampleCron.Remove (scriptedJob 0 [] 1).jobID ∧
      (scriptedJob 0 [] 1).jobID ∉
        ((scriptedJob 0 [] 1).runs exampleCron () fiveFailures).cron.entries ∧
      ((scriptedJob 0 [] 1).runs exampleCron () fiveFailures).job.attempts = 5) :=
  Run_retry_budget (scriptedJob 0 [] 1) exampleCron () fiveFailures rfl (by decide) (by decide)

/-- The fifth of five failures is the one that stops the job: after four the
entry 1 is still scheduled, after five it is not. -/
theorem Run_five_failures :
    ((scriptedJob 0 [] 1).runs exampleCron () (fiveFailures.take 4)).cron.entries = [1, 2] ∧
    ((scriptedJob 0 [] 1).runs exampleCron () fiveFailures).cron.entries = [2] ∧
    ((scriptedJob 0 [] 1).runs exampleCron () fiveFailures).cron.removeCalls = [1] := by
  decide

/-! ## The job closure: its calls on every exit path -/

theorem startAutoSync.job_acquire_failed (d : daemon) (dr : drive) (env : Env) (w : JobWorld)
    (e : GoError) (h : env.Acquire = some e) :
    startAutoSync.job d dr env w =
      (some (.errorfv "%v: acquiring sync semaphore: %v: %w" dr.ID e (.sentinel .ErrFatal)),
        { w with trace := w.trace ++ [Event.Acquire] }) := by
  simp [startAutoSync.job, h]

theorem startAutoSync.job_fullSync (d : daemon) (dr : drive) (env : Env) (w : JobWorld)
    (h : env.Acquire = none) (hfull : w.fullSync = true) :
    startAutoSync.job d dr env w =
      (match env.FullSync with
        | some err => some (.errorf "%v: performing full sync: %w" dr.ID err)
        | none => none,
        { fullSync := env.FullSync.isSome, gate := w.gate + 1 - 1, clock := w.clock,
          trace := w.trace ++ [Event.Acquire] ++ [Event.FullSync dr.ID] ++ [Event.Release] }) := by
  cases hfs : env.FullSync <;>
    simp [startAutoSync.job, startAutoSync.job.body, h, hfull, hfs]

theorem startAutoSync.job_partialSync_failed (d : daemon) (dr : drive) (env : Env)
    (w : JobWorld) (e : GoError) (h : env.Acquire = none) (hfull : w.fullSync = false)
    (hps : env.PartialSync = some e) :
    startAutoSync.job d dr env w =
      (some (.errorf "%v: performing partial sync: %w" dr.ID e),
        { fullSync := false, gate := w.gate + 1 - 1, clock := w.clock,
          trace := w.trace ++ [Event.Acquire] ++ [Event.PartialSync dr.ID] ++
            [Event.Release] }) := by
  simp [startAutoSync.job, startAutoSync.job.body, h, hfull, hps]

theorem startAutoSync.job_no_scans (d : daemon) (dr : drive) (env : Env)
    (w : JobWorld) (h : env.Acquire = none) (hfull : w.fullSync = false)
    (hps : env.PartialSync = none) (hscans : (getScanTask d dr env.paths w.clock).scans = []) :
    startAutoSync.job d dr env w =
      (none,
        { fullSync := false, gate := w.gate + 1 - 1,
          clock := (getScanTask.run d dr env.paths w.clock).clock,
          trace := w.trace ++ [Event.Acquire] ++ [Event.PartialSync dr.ID] ++
            [Event.getScanTask env.paths] ++ [Event.Release] }) := by
  simp [startAutoSync.job, startAutoSync.job.body, h, hfull, hps, hscans]

theorem startAutoSync.job_callback (d : daemon) (dr : drive) (env : Env)
    (w : JobWorld) (h : env.Acquire = none) (hfull : w.fullSync = false)
    (hps : env.PartialSync = none) (hscans : (getScanTask d dr env.paths w.clock).scans ≠ []) :
    startAutoSync.job d dr env w =
      (match env.callback (getScanTask d dr env.paths w.clock).scans with
        | some err =>
          some (.errorfv "%v: moving scans to processor: %v: %w" dr.ID err (.sentinel .ErrFatal))
        | none => none,
        { fullSync := false, gate := w.gate + 1 - 1,
          clock := (getScanTask.run d dr env.paths w.clock).clock,
          trace := w.trace ++ [Event.Acquire] ++ [Event.PartialSync dr.ID] ++
            [Event.getScanTask env.paths] ++
            [Event.callback (getScanTask d dr env.paths w.clock).scans] ++
            [Event.Release] }) := by
  have hpos : 0 < (getScanTask d dr env.paths w.clock).scans.length :=
    List.length_pos.2 hscans
  cases hcb : env.callback (getScanTask d dr env.paths w.clock).scans <;>
    simp [startAutoSync.job, startAutoSync.job.body, h, hfull, hps, hpos, hcb]

/-! ## C7: the gate is released on every exit path -/

/-- C7: with the gate as a counter of held permits, in every execution of a
job function in which `limiter.Acquire(1)` succeeds, `limiter.Release(1)` is
executed exactly once, as the last call before the function returns, on every
exit path, and the gate count after the execution equals the count before it;
when `Acquire` fails, `Release` is not executed. -/
theorem job_releases_gate (d : daemon) (dr : drive) (env : Env) (w : JobWorld) :
    (startAutoSync.job d dr env w).2.trace = w.trace ++ startAutoSync.job.calls d dr env w ∧
    (env.Acquire = none →
      (startAutoSync.job d dr env w).2.gate = w.gate ∧
      (startAutoSync.job.calls d dr env w).count Event.Release = 1 ∧
      (startAutoSync.job.calls d dr env w).getLast? = some Event.Release) ∧
    (env.Acquire ≠ none →
      Event.Release ∉ startAutoSync.job.calls d dr env w ∧
      (startAutoSync.job d dr env w).2.gate = w.gate) := by
  unfold startAutoSync.job.calls
  cases hacq : env.Acquire with
  | some e =>
    rw [startAutoSync.job_acquire_failed d dr env w e hacq,
      startAutoSync.job_acquire_failed d dr env _ e hacq]
    simp
  | none =>
    by_cases hfull1 : w.fullSync = true
    · rw [startAutoSync.job_fullSync d dr env w hacq hfull1,
        startAutoSync.job_fullSync d dr env { w with trace := [] } hacq hfull1]
      simp
    · have hfull : w.fullSync = false := by simpa using hfull1
      cases hps : env.PartialSync with
      | some e =>
        rw [startAutoSync.job_partialSync_failed d dr env w e hacq hfull hps,
          startAutoSync.job_partialSync_failed d dr env { w with trace := [] } e hacq hfull hps]
        simp
      | none =>
        by_cases hscans : (getScanTask d dr env.paths w.clock).scans = []
        · rw [startAutoSync.job_no_scans d dr env w hacq hfull hps hscans,
            startAutoSync.job_no_scans d dr env { w with trace := [] } hacq hfull hps hscans]
          simp
        · rw [startAutoSync.job_callback d dr env w hacq hfull hps hscans,
            startAutoSync.job_callback d dr env { w with trace := [] } hacq hfull hps hscans]
          simp

/-- C7 on the exit path of a downstream failure: the callback rejects the
scans, and the two permits held before are the two held after. -/
theorem job_releases_gate_callback_error :
    (startAutoSync.job exampleDaemon allowAllDrive
        { quietEnv with callback := fun _ => some (.sentinel (.other 0)) }
        incrementalWorld).2.gate = 2 ∧
      startAutoSync.job.calls exampleDaemon allowAllDrive
        { quietEnv with callback := fun _ => some (.sentinel (.other 0)) } incrementalWorld =
        [Event.Acquire, Event.PartialSync "A",
          Event.getScanTask { NewFolders := ["/x/y"], OldFolders := [] },
          Event.callback [{ Folder := "/x/y", Priority := 3, Time := 0 }], Event.Release] := by
  decide

/-! ## C8: delivery and acquisition failures are fatal -/

/-- When the callback is among the calls of an execution, the execution is an
incremental one that reached the delivery, and the callback was given the
scans of `getScanTask`. -/
theorem startAutoSync.job_callback_called (d : daemon) (dr : drive) (env : Env) (w : JobWorld)
    (scans : List Scan) (h : Event.callback scans ∈ startAutoSync.job.calls d dr env w) :
    env.Acquire = none ∧ w.fullSync = false ∧ env.PartialSync = none ∧
      (getScanTask d dr env.paths w.clock).scans ≠ [] ∧
      scans = (getScanTask d dr env.paths w.clock).scans := by
  unfold startAutoSync.job.calls at h
  cases hacq : env.Acquire with
  | some e =>
    rw [startAutoSync.job_acquire_failed d dr env _ e hacq] at h
    simp at h
  | none =>
    by_cases hfull1 : w.fullSync = true
    · rw [startAutoSync.job_fullSync d dr env { w with trace := [] } hacq hfull1] at h
      simp at h
    · have hfull : w.fullSync = false := by simpa using hfull1
      cases hps : env.PartialSync with
      | some e =>
        rw [startAutoSync.job_partialSync_failed d dr env { w with trace := [] } e hacq hfull
          hps] at h
        simp at h
      | none =>
        by_cases hscans : (getScanTask d dr env.paths w.clock).scans = []
        · rw [startAutoSync.job_no_scans d dr env { w with trace := [] } hacq hfull hps
            hscans] at h
          simp at h
        · rw [startAutoSync.job_callback d dr env { w with trace := [] } hacq hfull hps
            hscans] at h
          simp at h
          exact ⟨rfl, hfull, rfl, hscans, h⟩

/-- C8: for every error `e` returned by the downstream callback during an
execution, and for every error `e` returned by `limiter.Acquire`, the job
function returns an error that matches `autoscan.ErrFatal` and none of the
retryable values, whatever `e` itself matches; so `Run` on that job calls
`cron.Remove` on its entry at once, whatever the attempt count. -/
theorem job_delivery_failure_fatal (d : daemon) (dr : drive) (env : Env) (w : JobWorld)
    (s : syncJob Env JobWorld) (c : Cron) (scans : List Scan) (e : GoError)
    (hfn : s.fn = startAutoSync.job d dr)
    (h : (Event.callback scans ∈ startAutoSync.job.calls d dr env w ∧
        env.callback scans = some e) ∨ env.Acquire = some e) :
    ∃ err, (startAutoSync.job d dr env w).1 = some err ∧
      errors.Is err .ErrFatal = true ∧ isRetryable err = false ∧
      (s.Run c env w).cron = c.Remove s.jobID ∧ s.jobID ∉ (s.Run c env w).cron.entries := by
  have key : ∃ err, (startAutoSync.job d dr env w).1 = some err ∧
      errors.Is err .ErrFatal = true ∧ isRetryable err = false := by
    rcases h with ⟨hcall, hcb⟩ | hacq
    · obtain ⟨hacq, hfull, hps, hscans, heq⟩ :=
        startAutoSync.job_callback_called d dr env w scans hcall
      rw [heq] at hcb
      rw [startAutoSync.job_callback d dr env w hacq hfull hps hscans, hcb]
      exact ⟨_, rfl, rfl, rfl⟩
    · rw [startAutoSync.job_acquire_failed d dr env w e hacq]
      exact ⟨_, rfl, rfl, rfl⟩
  obtain ⟨err, herr, hfatal, hnot⟩ := key
  refine ⟨err, herr, hfatal, hnot, ?_⟩
  rw [syncJob.Run_fatal s c env w err (by rw [hfn]; exact herr) hfatal hnot]
  exact ⟨rfl, Cron.not_mem_Remove c s.jobID⟩

/-- C8 at a concrete execution: the callback returns `lowe.ErrNetwork`, a
retryable value, on the first execution of the job with entry 1. -/
theorem job_delivery_failure_fatal_witness :
    ∃ err, (startAutoSync.job exampleDaemon allowAllDrive rejectingEnv
        incrementalWorld).1 = some err ∧
      errors.Is err .ErrFatal = true ∧ isRetryable err = false ∧
      ((exampleJob 0).Run exampleCron rejectingEnv incrementalWorld).cron =
        exampleCron.Remove (exampleJob 0).jobID ∧
      (exampleJob 0).jobID ∉
        ((exampleJob 0).Run exampleCron rejectingEnv incrementalWorld).cron.entries :=
  job_delivery_failure_fatal exampleDaemon allowAllDrive rejectingEnv incrementalWorld
    (exampleJob 0) exampleCron [{ Folder := "/x/y", Priority := 3, Time := 0 }]
    (.sentinel .ErrNetwork) rfl (Or.inl ⟨by decide, rfl⟩)

/-! ## `startAutoSync`: what it schedules -/

theorem startAutoSync.loop_mem (d : daemon) (senv : StartEnv) (drs : List drive) (c : Cron)
    (jobs : List Scheduled) (c2 : Cron) (jobs2 : List Scheduled)
    (h : startAutoSync.loop d senv drs c jobs = .ok (c2, jobs2)) (sch : Scheduled)
    (hmem : sch ∈ jobs2) :
    sch ∈ jobs ∨
      (sch.drive ∈ drs ∧ sch.job.fn = startAutoSync.job d sch.drive ∧
        (sch.fullSync = true ↔
          ∃ e, senv.PageToken sch.drive.ID = some e ∧ errors.Is e .ErrFullSync = true)) := by
  induction drs generalizing c jobs with
  | nil =>
    simp only [startAutoSync.loop, Except.ok.injEq, Prod.mk.injEq] at h
    exact Or.inl (h.2 ▸ hmem)
  | cons dr rest ih =>
    unfold startAutoSync.loop at h
    cases hpt : senv.PageToken dr.ID with
    | none =>
      simp only [hpt] at h
      cases hparse : senv.Parse d.cronSchedule with
      | some e => simp [hparse] at h
      | none =>
        simp only [hparse] at h
        rcases ih _ _ h with hin | ⟨h1, h2, h3⟩
        · rcases List.mem_append.1 hin with hin | hin
          · exact Or.inl hin
          · right
            simp only [List.mem_singleton] at hin
            subst hin
            simp [newSyncJob, hpt]
        · exact Or.inr ⟨List.mem_cons_of_mem _ h1, h2, h3⟩
    | some e =>
      simp only [hpt] at h
      by_cases hfs : errors.Is e .ErrFullSync = true
      · simp only [hfs, if_true] at h
        cases hparse : senv.Parse d.cronSchedule with
        | some e => simp [hparse] at h
        | none =>
          simp only [hparse] at h
          rcases ih _ _ h with hin | ⟨h1, h2, h3⟩
          · rcases List.mem_append.1 hin with hin | hin
            · exact Or.inl hin
            · right
              simp only [List.mem_singleton] at hin
              subst hin
              simp [newSyncJob, hpt, hfs]
          · exact Or.inr ⟨List.mem_cons_of_mem _ h1, h2, h3⟩
      · simp [hfs] at h

theorem startAutoSync.scheduled_mem (d : daemon) (senv : StartEnv) (c : Cron)
    (jobs : List Scheduled) (h : startAutoSync d senv = .ok (c, jobs)) (sch : Scheduled)
    (hmem : sch ∈ jobs) :
    sch.drive ∈ d.drives ∧ sch.job.fn = startAutoSync.job d sch.drive ∧
      (sch.fullSync = true ↔
        ∃ e, senv.PageToken sch.drive.ID = some e ∧ errors.Is e .ErrFullSync = true) := by
  unfold startAutoSync at h
  cases hloop : startAutoSync.loop d senv d.drives Cron.New [] with
  | error e => simp [hloop] at h
  | ok r =>
    obtain ⟨c2, jobs2⟩ := r
    simp only [hloop, Except.ok.injEq, Prod.mk.injEq] at h
    rcases startAutoSync.loop_mem d senv d.drives Cron.New [] c2 jobs2 hloop sch
      (h.2 ▸ hmem) with hin | hres
    · simp at hin
    · exact hres

/-! ## The job closure: full or partial -/

theorem startAutoSync.job.calls_full (d : daemon) (dr : drive) (env : Env) (w : JobWorld)
    (hacq : env.Acquire = none) (hfull : w.fullSync = true) :
    startAutoSync.job.calls d dr env w = [Event.Acquire, Event.FullSync dr.ID, Event.Release] := by
  unfold startAutoSync.job.calls
  rw [startAutoSync.job_fullSync d dr env { w with trace := [] } hacq hfull]
  rfl

theorem startAutoSync.job.calls_incremental (d : daemon) (dr : drive) (env : Env)
    (w : JobWorld) (hacq : env.Acquire = none) (hfull : w.fullSync = false) :
    Event.PartialSync dr.ID ∈ startAutoSync.job.calls d dr env w ∧
      ∀ id, Event.FullSync id ∉ startAutoSync.job.calls d dr env w := by
  unfold startAutoSync.job.calls
  cases hps : env.PartialSync with
  | some e =>
    rw [startAutoSync.job_partialSync_failed d dr env { w with trace := [] } e hacq hfull hps]
    simp
  | none =>
    by_cases hscans : (getScanTask d dr env.paths w.clock).scans = []
    · rw [startAutoSync.job_no_scans d dr env { w with trace := [] } hacq hfull hps hscans]
      simp
    · rw [startAutoSync.job_callback d dr env { w with trace := [] } hacq hfull hps hscans]
      simp

theorem startAutoSync.job_flag (d : daemon) (dr : drive) (env : Env) (w : JobWorld)
    (hacq : env.Acquire = none) :
    (startAutoSync.job d dr env w).2.fullSync = (w.fullSync && env.FullSync.isSome) := by
  by_cases hfull1 : w.fullSync = true
  · rw [startAutoSync.job_fullSync d dr env w hacq hfull1, hfull1]
    simp
  · have hfull : w.fullSync = false := by simpa using hfull1
    cases hps : env.PartialSync with
    | some e =>
      rw [startAutoSync.job_partialSync_failed d dr env w e hacq hfull hps, hfull]
      simp
    | none =>
      by_cases hscans : (getScanTask d dr env.paths w.clock).scans = []
      · rw [startAutoSync.job_no_scans d dr env w hacq hfull hps hscans, hfull]
        simp
      · rw [startAutoSync.job_callback d dr env w hacq hfull hps hscans, hfull]
        simp

/-! ## The job closure: its calls, path by path -/

theorem startAutoSync.job.calls_acquire_failed (d : daemon) (dr : drive) (env : Env)
    (w : JobWorld) (e : GoError) (hacq : env.Acquire = some e) :
    startAutoSync.job.calls d dr env w = [Event.Acquire] := by
  unfold startAutoSync.job.calls
  rw [startAutoSync.job_acquire_failed d dr env _ e hacq]
  rfl

theorem startAutoSync.job.calls_partialSync_failed (d : daemon) (dr : drive) (env : Env)
    (w : JobWorld) (e : GoError) (hacq : env.Acquire = none) (hfull : w.fullSync = false)
    (hps : env.PartialSync = some e) :
    startAutoSync.job.calls d dr env w =
      [Event.Acquire, Event.PartialSync dr.ID, Event.Release] := by
  unfold startAutoSync.job.calls
  rw [startAutoSync.job_partialSync_failed d dr env { w with trace := [] } e hacq hfull hps]
  rfl

theorem startAutoSync.job.calls_no_scans (d : daemon) (dr : drive) (env : Env)
    (w : JobWorld) (hacq : env.Acquire = none) (hfull : w.fullSync = false)
    (hps : env.PartialSync = none) (hscans : (getScanTask d dr env.paths w.clock).scans = []) :
    startAutoSync.job.calls d dr env w =
      [Event.Acquire, Event.PartialSync dr.ID, Event.getScanTask env.paths, Event.Release] := by
  unfold startAutoSync.job.calls
  rw [startAutoSync.job_no_scans d dr env { w with trace := [] } hacq hfull hps hscans]
  rfl

theorem startAutoSync.job.calls_callback (d : daemon) (dr : drive) (env : Env)
    (w : JobWorld) (hacq : env.Acquire = none) (hfull : w.fullSync = false)
    (hps : env.PartialSync = none) (hscans : (getScanTask d dr env.paths w.clock).scans ≠ []) :
    startAutoSync.job.calls d dr env w =
      [Event.Acquire, Event.PartialSync dr.ID, Event.getScanTask env.paths,
        Event.callback (getScanTask d dr env.paths w.clock).scans, Event.Release] := by
  unfold startAutoSync.job.calls
  rw [startAutoSync.job_callback d dr env { w with trace := [] } hacq hfull hps hscans]
  rfl

/-- When the limiter fails, the job function returns an error that matches
`autoscan.ErrFatal` and no retryable value. -/
theorem startAutoSync.job_acquire_failed_fatal (d : daemon) (dr : drive) (env : Env)
    (w : JobWorld) (e : GoError) (hacq : env.Acquire = some e) :
    ∃ err, (startAutoSync.job d dr env w).1 = some err ∧
      errors.Is err .ErrFatal = true ∧ isRetryable err = false := by
  rw [startAutoSync.job_acquire_failed d dr env w e hacq]
  exact ⟨_, rfl, rfl, rfl⟩

theorem Env.oneStore_lost (env : Env) (e : GoError) (hone : env.oneStore = true)
    (hpt : env.PageToken = some e) (hfs : errors.Is e .ErrFullSync = true) :
    ∃ e2, env.PartialSync = some e2 ∧ errors.Is e2 .ErrFullSync = true := by
  unfold Env.oneStore at hone
  rw [hpt] at hone
  cases hps : env.PartialSync with
  | none => simp [hps] at hone
  | some e2 =>
    simp only [hps, hfs, Bool.not_true, Bool.false_or] at hone
    exact ⟨e2, rfl, hone⟩

/-- The answers used as concrete executions agree with one store. -/
theorem example_envs_oneStore :
    quietEnv.oneStore = true ∧ rejectingEnv.oneStore = true ∧ gateFailedEnv.oneStore = true ∧
      fullSyncFailedEnv.oneStore = true ∧ tokenLostEnv.oneStore = true := by
  decide

/-! ## C9: full sync first, partial sync after it succeeded -/

/-- C9, as stated, fails: the store has no page token at startup, the limiter
fails in the first execution, and that execution returns a fatal error after
`Acquire` without calling `FullSync`. -/
theorem first_execution_without_full_sync :
    startAutoSync.firstRun oneDriveDaemon noTokenStart gateFailedEnv =
      [("A", true, [Event.Acquire])] ∧
    (startAutoSync.job oneDriveDaemon allowAllDrive gateFailedEnv fullSyncWorld).1 =
      some (.errorfv "%v: acquiring sync semaphore: %v: %w" "A" (.sentinel (.other 0))
        (.sentinel .ErrFatal)) ∧
    errors.Is (.errorfv "%v: acquiring sync semaphore: %v: %w" "A" (.sentinel (.other 0))
        (.sentinel .ErrFatal)) .ErrFatal = true := by
  decide

/-- C9, amended: for a drive whose store reports no page token at startup
(`PageToken` returns `ds.ErrFullSync`), the first execution of its job
function, when `limiter.Acquire` succeeds, calls `FullSync` and not
`PartialSync`; if that `FullSync` succeeds, the next execution of the same job
function, when `limiter.Acquire` succeeds again, calls `PartialSync` and not
`FullSync`. An execution in which `limiter.Acquire` fails makes no other call
and returns an error that matches `autoscan.ErrFatal` and no retryable value:
a fatal error, before either sync is called. -/
theorem first_execution_full_then_partial (d : daemon) (senv : StartEnv) (c : Cron)
    (jobs : List Scheduled) (sch : Scheduled) (e : GoError) (env1 env2 : Env) (w : JobWorld)
    (hstart : startAutoSync d senv = .ok (c, jobs)) (hmem : sch ∈ jobs)
    (hpt : senv.PageToken sch.drive.ID = some e) (hfs : errors.Is e .ErrFullSync = true)
    (hw : w.fullSync = sch.fullSync) (hacq1 : env1.Acquire = none)
    (hacq2 : env2.Acquire = none) :
    sch.job.fn = startAutoSync.job d sch.drive ∧
    startAutoSync.job.calls d sch.drive env1 w =
      [Event.Acquire, Event.FullSync sch.drive.ID, Event.Release] ∧
    (env1.FullSync = none →
      Event.PartialSync sch.drive.ID ∈
        startAutoSync.job.calls d sch.drive env2 (sch.job.fn env1 w).2 ∧
      Event.FullSync sch.drive.ID ∉
        startAutoSync.job.calls d sch.drive env2 (sch.job.fn env1 w).2) ∧
    (∀ (env0 : Env) (w0 : JobWorld) (e0 : GoError), env0.Acquire = some e0 →
      startAutoSync.job.calls d sch.drive env0 w0 = [Event.Acquire] ∧
      ∃ err, (sch.job.fn env0 w0).1 = some err ∧
        errors.Is err .ErrFatal = true ∧ isRetryable err = false) := by
  obtain ⟨_, hfn, hflag⟩ := startAutoSync.scheduled_mem d senv c jobs hstart sch hmem
  have hfull : w.fullSync = true := by
    rw [hw]
    exact hflag.2 ⟨e, hpt, hfs⟩
  refine ⟨hfn, startAutoSync.job.calls_full d sch.drive env1 w hacq1 hfull, ?_, ?_⟩
  · intro hok
    have hafter : (sch.job.fn env1 w).2.fullSync = false := by
      rw [hfn, startAutoSync.job_flag d sch.drive env1 w hacq1, hok]
      simp
    have := startAutoSync.job.calls_incremental d sch.drive env2 (sch.job.fn env1 w).2 hacq2
      hafter
    exact ⟨this.1, this.2 _⟩
  · intro env0 w0 e0 hacq0
    refine ⟨startAutoSync.job.calls_acquire_failed d sch.drive env0 w0 e0 hacq0, ?_⟩
    rw [hfn]
    exact startAutoSync.job_acquire_failed_fatal d sch.drive env0 w0 e0 hacq0

/-- C9, amended, for the one drive of `oneDriveDaemon`: the store has no page
token at startup nor during the first execution, whose full sync succeeds, and
it has one during the second execution. -/
theorem first_execution_full_then_partial_witness :
    (oneDriveScheduled true).job.fn =
      startAutoSync.job oneDriveDaemon (oneDriveScheduled true).drive ∧
    startAutoSync.job.calls oneDriveDaemon (oneDriveScheduled true).drive tokenLostEnv
        fullSyncWorld =
      [Event.Acquire, Event.FullSync (oneDriveScheduled true).drive.ID, Event.Release] ∧
    (tokenLostEnv.FullSync = none →
      Event.PartialSync (oneDriveScheduled true).drive.ID ∈
        startAutoSync.job.calls oneDriveDaemon (oneDriveScheduled true).drive quietEnv
          ((oneDriveScheduled true).job.fn tokenLostEnv fullSyncWorld).2 ∧
      Event.FullSync (oneDriveScheduled true).drive.ID ∉
        startAutoSync.job.calls oneDriveDaemon (oneDriveScheduled true).drive quietEnv
          ((oneDriveScheduled true).job.fn tokenLostEnv fullSyncWorld).2) ∧
    (∀ (env0 : Env) (w0 : JobWorld) (e0 : GoError), env0.Acquire = some e0 →
      startAutoSync.job.calls oneDriveDaemon (oneDriveScheduled true).drive env0 w0 =
        [Event.Acquire] ∧
      ∃ err, ((oneDriveScheduled true).job.fn env0 w0).1 = some err ∧
        errors.Is err .ErrFatal = true ∧ isRetryable err = false) :=
  first_execution_full_then_partial oneDriveDaemon noTokenStart oneDriveCron
    [oneDriveScheduled true] (oneDriveScheduled true) (.sentinel .ErrFullSync) tokenLostEnv
    quietEnv fullSyncWorld rfl (List.mem_singleton.2 rfl) rfl rfl rfl rfl rfl

/-- The two executions of C9 evaluated: the full sync, then the partial sync
that delivers its scan. -/
theorem first_two_executions :
    startAutoSync.firstRun oneDriveDaemon noTokenStart tokenLostEnv =
      [("A", true, [Event.Acquire, Event.FullSync "A", Event.Release])] ∧
    (startAutoSync.job.executions oneDriveDaemon allowAllDrive fullSyncWorld
      [tokenLostEnv, quietEnv]).trace =
      [Event.Acquire, Event.FullSync "A", Event.Release,
        Event.Acquire, Event.PartialSync "A",
        Event.getScanTask { NewFolders := ["/x/y"], OldFolders := [] },
        Event.callback [{ Folder := "/x/y", Priority := 3, Time := 0 }], Event.Release] := by
  decide

/-! ## C10: where the mode is decided -/

/-- C10, as stated, fails: the store has a page token at startup, so the
captured variable is unset; during the execution the store reports no page
token (`PageToken` would return `ds.ErrFullSync`, and so does the partial
sync, which reads the same store); the execution still calls `PartialSync`
and not `FullSync`, and returns the error of the partial sync. -/
theorem mode_not_read_from_store :
    tokenLostEnv.oneStore = true ∧
    tokenLostEnv.PageToken = some (.sentinel .ErrFullSync) ∧
    errors.Is (.sentinel .ErrFullSync) .ErrFullSync = true ∧
    startAutoSync.firstRun oneDriveDaemon tokenStart tokenLostEnv =
      [("A", false, [Event.Acquire, Event.PartialSync "A", Event.Release])] ∧
    (startAutoSync.job oneDriveDaemon allowAllDrive tokenLostEnv incrementalWorld).1 =
      some (.errorf "%v: performing partial sync: %w" "A" (.sentinel .ErrFullSync)) := by
  decide

/-- C10, amended: the mode of an execution is decided by the captured
variable `fullSync` of the job, not by asking the store at the invocation. The
variable is set at startup exactly when `PageToken` then yields
`ds.ErrFullSync`; an execution in which `limiter.Acquire` succeeds performs a
full sync if and only if the variable is set when it starts, and a partial
sync otherwise, whatever the store reports at that time; the variable is
set after the execution exactly when it was set before and `FullSync`
failed; and when the variable is unset and the store has no page token at the
invocation, the execution calls `PartialSync`, which fails with
`ds.ErrFullSync`, performs no full sync and returns that error. -/
theorem mode_decided_by_flag (d : daemon) (senv : StartEnv) (c : Cron)
    (jobs : List Scheduled) (sch : Scheduled) (env : Env) (w : JobWorld)
    (hstart : startAutoSync d senv = .ok (c, jobs)) (hmem : sch ∈ jobs)
    (hacq : env.Acquire = none) :
    (sch.fullSync = true ↔
      ∃ e, senv.PageToken sch.drive.ID = some e ∧ errors.Is e .ErrFullSync = true) ∧
    sch.job.fn = startAutoSync.job d sch.drive ∧
    (Event.FullSync sch.drive.ID ∈ startAutoSync.job.calls d sch.drive env w ↔
      w.fullSync = true) ∧
    (Event.PartialSync sch.drive.ID ∈ startAutoSync.job.calls d sch.drive env w ↔
      w.fullSync = false) ∧
    (sch.job.fn env w).2.fullSync = (w.fullSync && env.FullSync.isSome) ∧
    (w.fullSync = false → env.oneStore = true →
      ∀ e, env.PageToken = some e → errors.Is e .ErrFullSync = true →
        startAutoSync.job.calls d sch.drive env w =
          [Event.Acquire, Event.PartialSync sch.drive.ID, Event.Release] ∧
        ∃ err, (sch.job.fn env w).1 = some err ∧ errors.Is err .ErrFullSync = true) := by
  obtain ⟨_, hfn, hflag⟩ := startAutoSync.scheduled_mem d senv c jobs hstart sch hmem
  refine ⟨hflag, hfn, ?_, ?_, ?_, ?_⟩
  · by_cases hfull1 : w.fullSync = true
    · rw [startAutoSync.job.calls_full d sch.drive env w hacq hfull1]
      simp [hfull1]
    · have hfull : w.fullSync = false := by simpa using hfull1
      have := (startAutoSync.job.calls_incremental d sch.drive env w hacq hfull).2 sch.drive.ID
      simp [this, hfull]
  · by_cases hfull1 : w.fullSync = true
    · rw [startAutoSync.job.calls_full d sch.drive env w hacq hfull1]
      simp [hfull1]
    · have hfull : w.fullSync = false := by simpa using hfull1
      have := (startAutoSync.job.calls_incremental d sch.drive env w hacq hfull).1
      simp [this, hfull]
  · rw [hfn]
    exact startAutoSync.job_flag d sch.drive env w hacq
  · intro hfull hone e hpt hfs
    obtain ⟨e2, hps, hfs2⟩ := Env.oneStore_lost env e hone hpt hfs
    refine ⟨startAutoSync.job.calls_partialSync_failed d sch.drive env w e2 hacq hfull hps, ?_⟩
    rw [hfn, startAutoSync.job_partialSync_failed d sch.drive env w e2 hacq hfull hps]
    exact ⟨_, rfl, hfs2⟩

/-- C10, amended, at an execution during which the store has lost the page
token it had at startup. -/
theorem mode_decided_by_flag_witness :
    ((oneDriveScheduled false).fullSync = true ↔
      ∃ e, tokenStart.PageToken (oneDriveScheduled false).drive.ID = some e ∧
        errors.Is e .ErrFullSync = true) ∧
    (oneDriveScheduled false).job.fn =
      startAutoSync.job oneDriveDaemon (oneDriveScheduled false).drive ∧
    (Event.FullSync (oneDriveScheduled false).drive.ID ∈
        startAutoSync.job.calls oneDriveDaemon (oneDriveScheduled false).drive tokenLostEnv
          incrementalWorld ↔ incrementalWorld.fullSync = true) ∧
    (Event.PartialSync (oneDriveScheduled false).drive.ID ∈
        startAutoSync.job.calls oneDriveDaemon (oneDriveScheduled false).drive tokenLostEnv
          incrementalWorld ↔ incrementalWorld.fullSync = false) ∧
    ((oneDriveScheduled false).job.fn tokenLostEnv incrementalWorld).2.fullSync =
      (incrementalWorld.fullSync && tokenLostEnv.FullSync.isSome) ∧
    (incrementalWorld.fullSync = false → tokenLostEnv.oneStore = true →
      ∀ e, tokenLostEnv.PageToken = some e → errors.Is e .ErrFullSync = true →
        startAutoSync.job.calls oneDriveDaemon (oneDriveScheduled false).drive tokenLostEnv
            incrementalWorld =
          [Event.Acquire, Event.PartialSync (oneDriveScheduled false).drive.ID,
            Event.Release] ∧
        ∃ err, ((oneDriveScheduled false).job.fn tokenLostEnv incrementalWorld).1 = some err ∧
          errors.Is err .ErrFullSync = true) :=
  mode_decided_by_flag oneDriveDaemon tokenStart oneDriveCron [oneDriveScheduled false]
    (oneDriveScheduled false) tokenLostEnv incrementalWorld rfl (List.mem_singleton.2 rfl) rfl

/-- The two modes evaluated for the drive of `oneDriveDaemon`: with a page
token at startup the first execution is a partial sync that delivers its scan,
without one it is a full sync. -/
theorem mode_at_startup :
    startAutoSync.firstRun oneDriveDaemon tokenStart quietEnv =
      [("A", false,
        [Event.Acquire, Event.PartialSync "A",
          Event.getScanTask { NewFolders := ["/x/y"], OldFolders := [] },
          Event.callback [{ Folder := "/x/y", Priority := 3, Time := 0 }], Event.Release])] ∧
    startAutoSync.firstRun oneDriveDaemon noTokenStart tokenLostEnv =
      [("A", true, [Event.Acquire, Event.FullSync "A", Event.Release])] := by
  decide

/-! ## C11: invalid credentials -/

theorem syncJob.Run_retryable {E W : Type} (s : syncJob E W) (c : Cron) (env : E) (w : W)
    (err : GoError) (h : (s.fn env w).1 = some err) (hret : isRetryable err = true) :
    s.Run c env w =
      syncJob.abortIfMax
        { s with attempts := wrapInt (s.attempts + 1), errors := s.errors ++ [err] } c
        (s.fn env w).2 := by
  have hc : countsAgainstBudget (s.fn env w).1 = true := by
    simp [h, countsAgainstBudget, hret]
  obtain ⟨err2, herr2, hrun⟩ := syncJob.Run_counted s c env w hc
  rw [h] at herr2
  cases herr2
  exact hrun

/-- C11, as stated, fails: on the first execution the job function returns
`lowe.ErrInvalidCredentials`; `Run` keeps the job scheduled, records the error
and counts the attempt. -/
theorem Run_invalid_credentials_not_removed :
    errors.Is (.sentinel .ErrInvalidCredentials) .ErrInvalidCredentials = true ∧
    ((scriptedJob 0 [] 1).Run exampleCron (some (.sentinel .ErrInvalidCredentials)) ()).cron =
      exampleCron ∧
    ((scriptedJob 0 [] 1).Run exampleCron
      (some (.sentinel .ErrInvalidCredentials)) ()).job.attempts = 1 ∧
    ((scriptedJob 0 [] 1).Run exampleCron
      (some (.sentinel .ErrInvalidCredentials)) ()).job.errors =
        [.sentinel .ErrInvalidCredentials] := by
  decide

/-- C11, amended: an invalid-credentials failure is a retryable outcome. For
every `syncJob` state, when the job function returns an error matching
`lowe.ErrInvalidCredentials`, `Run` appends the error to the errors list and
counts the attempt against the retry budget; it removes the cron entry of the
job only when the attempt count has reached `maxSyncRetries`, and leaves the
scheduler as it was otherwise. -/
theorem Run_invalid_credentials_retried {E W : Type} (s : syncJob E W) (c : Cron) (env : E)
    (w : W) (err : GoError) (h : (s.fn env w).1 = some err)
    (hcred : errors.Is err .ErrInvalidCredentials = true) :
    (s.Run c env w).job.errors = s.errors ++ [err] ∧
    (s.Run c env w).job.attempts = wrapInt (s.attempts + 1) ∧
    (wrapInt (s.attempts + 1) < maxSyncRetries → (s.Run c env w).cron = c) ∧
    (maxSyncRetries ≤ wrapInt (s.attempts + 1) → (s.Run c env w).cron = c.Remove s.jobID) := by
  have hret : isRetryable err = true := by simp [isRetryable, hcred]
  rw [syncJob.Run_retryable s c env w err h hret]
  unfold syncJob.abortIfMax
  by_cases hmax : wrapInt (s.attempts + 1) ≥ maxSyncRetries
  · rw [if_pos hmax]
    exact ⟨rfl, rfl, fun hlt => absurd hmax (not_le.2 hlt), fun _ => rfl⟩
  · rw [if_neg hmax]
    exact ⟨rfl, rfl, fun _ => rfl, fun hge => absurd hge hmax⟩

/-- C11, amended, after two failed attempts of the job with entry 1. -/
theorem Run_invalid_credentials_retried_witness :
    ((scriptedJob 2 [.sentinel .ErrNetwork, .sentinel .ErrNetwork] 1).Run exampleCron
      (some (.sentinel .ErrInvalidCredentials)) ()).job.errors =
        (scriptedJob 2 [.sentinel .ErrNetwork, .sentinel .ErrNetwork] 1).errors ++
          [.sentinel .ErrInvalidCredentials] ∧
    ((scriptedJob 2 [.sentinel .ErrNetwork, .sentinel .ErrNetwork] 1).Run exampleCron
      (some (.sentinel .ErrInvalidCredentials)) ()).job.attempts =
        wrapInt ((scriptedJob 2 [.sentinel .ErrNetwork, .sentinel .ErrNetwork] 1).attempts + 1) ∧
    (wrapInt ((scriptedJob 2 [.sentinel .ErrNetwork, .sentinel .ErrNetwork] 1).attempts + 1) <
        maxSyncRetries →
      ((scriptedJob 2 [.sentinel .ErrNetwork, .sentinel .ErrNetwork] 1).Run exampleCron
        (some (.sentinel .ErrInvalidCredentials)) ()).cron = exampleCron) ∧
    (maxSyncRetries ≤
        wrapInt ((scriptedJob 2 [.sentinel .ErrNetwork, .sentinel .ErrNetwork] 1).attempts + 1) →
      ((scriptedJob 2 [.sentinel .ErrNetwork, .sentinel .ErrNetwork] 1).Run exampleCron
        (some (.sentinel .ErrInvalidCredentials)) ()).cron =
          exampleCron.Remove (scriptedJob 2 [.sentinel .ErrNetwork, .sentinel .ErrNetwork] 1).jobID) :=
  Run_invalid_credentials_retried (scriptedJob 2 [.sentinel .ErrNetwork, .sentinel .ErrNetwork] 1)
    exampleCron (some (.sentinel .ErrInvalidCredentials)) () (.sentinel .ErrInvalidCredentials)
    rfl (by decide)

/-! ## The sync-job state machine: its invariant -/

theorem outcome_cases (o : Option GoError) :
    o = none ∨ countsAgainstBudget o = true ∨ isFatalOutcome o = true := by
  cases o with
  | none => exact Or.inl rfl
  | some err =>
    right
    simp only [countsAgainstBudget, isFatalOutcome]
    cases isRetryable err <;> cases errors.Is err .ErrFatal <;> simp

theorem syncJob.Run_fatalOutcome {E W : Type} (s : syncJob E W) (c : Cron) (env : E) (w : W)
    (h : isFatalOutcome (s.fn env w).1 = true) :
    s.Run c env w =
      { job := { s with attempts := wrapInt (s.attempts + 1) }, cron := c.Remove s.jobID,
        world := (s.fn env w).2 } := by
  cases hres : (s.fn env w).1 with
  | none => simp [hres, isFatalOutcome] at h
  | some err =>
    simp only [hres, isFatalOutcome, Bool.and_eq_true, Bool.not_eq_true'] at h
    exact syncJob.Run_fatal s c env w err hres h.2 h.1

theorem syncJob.Run_jobID_fn {E W : Type} (s : syncJob E W) (c : Cron) (env : E) (w : W) :
    (s.Run c env w).job.jobID = s.jobID ∧ (s.Run c env w).job.fn = s.fn := by
  rcases outcome_cases (s.fn env w).1 with h | h | h
  · rw [syncJob.Run_success s c env w h]
    exact ⟨rfl, rfl⟩
  · obtain ⟨err, _, hrun⟩ := syncJob.Run_counted s c env w h
    rw [hrun]
    unfold syncJob.abortIfMax
    split <;> exact ⟨rfl, rfl⟩
  · rw [syncJob.Run_fatalOutcome s c env w h]
    exact ⟨rfl, rfl⟩

/-- A run of a scheduled job that satisfies the invariant adds one to
`attempts`, unless it succeeds. -/
theorem syncJob.wrap_attempts {E W : Type} (s : syncJob E W) (c : Cron)
    (hinv : s.Inv c) (hsched : s.jobID ∈ c.entries) :
    wrapInt (s.attempts + 1) = s.attempts + 1 := by
  obtain ⟨h0, _, h2⟩ := hinv
  have hlt := (h2 hsched).1
  simp only [maxSyncRetries] at hlt
  exact wrapInt_small _ (by omega) (by omega)

theorem syncJob.Run_inv {E W : Type} (s : syncJob E W) (c : Cron) (env : E) (w : W)
    (hinv : s.Inv c) (hsched : s.jobID ∈ c.entries) :
    (s.Run c env w).job.Inv (s.Run c env w).cron := by
  have hw := syncJob.wrap_attempts s c hinv hsched
  obtain ⟨h0, h1, h2⟩ := hinv
  obtain ⟨hlt, hlen⟩ := h2 hsched
  simp only [maxSyncRetries] at hlt h1
  rcases outcome_cases (s.fn env w).1 with h | h | h
  · rw [syncJob.Run_success s c env w h]
    simp [syncJob.Inv, maxSyncRetries]
  · obtain ⟨err, _, hrun⟩ := syncJob.Run_counted s c env w h
    rw [hrun, hw]
    unfold syncJob.abortIfMax
    by_cases hmax : s.attempts + 1 ≥ maxSyncRetries
    · rw [if_pos hmax]
      simp only [maxSyncRetries] at hmax
      refine ⟨by show 0 ≤ s.attempts + 1; omega, by
        show s.attempts + 1 ≤ maxSyncRetries
        simp only [maxSyncRetries]
        omega, ?_⟩
      intro hmem
      exact absurd hmem (Cron.not_mem_Remove c s.jobID)
    · rw [if_neg hmax]
      simp only [maxSyncRetries] at hmax
      refine ⟨by show 0 ≤ s.attempts + 1; omega, by
        show s.attempts + 1 ≤ maxSyncRetries
        simp only [maxSyncRetries]
        omega, ?_⟩
      intro _
      refine ⟨by
        show s.attempts + 1 < maxSyncRetries
        simp only [maxSyncRetries]
        omega, ?_⟩
      show ((s.errors ++ [err]).length : Int) = s.attempts + 1
      simp only [List.length_append, List.length_cons, List.length_nil]
      push_cast
      omega
  · rw [syncJob.Run_fatalOutcome s c env w h, hw]
    refine ⟨by show 0 ≤ s.attempts + 1; omega, by
      show s.attempts + 1 ≤ maxSyncRetries
      simp only [maxSyncRetries]
      omega, ?_⟩
    intro hmem
    exact absurd hmem (Cron.not_mem_Remove c s.jobID)

theorem syncJob.fires_inv {E W : Type} (s : syncJob E W) (c : Cron) (w : W) (envs : List E)
    (hinv : s.Inv c) : (s.fires c w envs).job.Inv (s.fires c w envs).cron := by
  induction envs generalizing s c w with
  | nil => exact hinv
  | cons env envs ih =>
    simp only [syncJob.fires]
    apply ih
    unfold syncJob.fire
    by_cases hsched : s.jobID ∈ c.entries
    · rw [if_pos hsched]
      exact syncJob.Run_inv s c env w hinv hsched
    · rw [if_neg hsched]
      exact hinv

theorem syncJob.reached_inv {E W : Type} (fn : E → W → Option GoError × W) (id : Nat)
    (c : Cron) (w : W) (envs : List E) :
    (syncJob.reached fn id c w envs).job.Inv (syncJob.reached fn id c w envs).cron := by
  apply syncJob.fires_inv
  simp [syncJob.Inv, newSyncJob, maxSyncRetries]

theorem isFatalOutcome_not_counted (o : Option GoError) (h : isFatalOutcome o = true) :
    countsAgainstBudget o = false := by
  cases o with
  | none => simp [isFatalOutcome] at h
  | some err =>
    simp only [isFatalOutcome, Bool.and_eq_true, Bool.not_eq_true'] at h
    simp [countsAgainstBudget, h.1, h.2]

/-! ## C12: the range of `attempts` -/

/-- C12: in every state a job created by `newSyncJob` reaches when `Run` is
invoked only while its entry is scheduled, `attempts` lies between 0 and
`maxSyncRetries`; a `Run` from such a state, the job still scheduled, whose
job function fails with a retryable or unexpected error leaves `attempts`
exactly one greater than before, and one whose job function succeeds leaves it
at 0. -/
theorem attempts_in_range {E W : Type} (fn : E → W → Option GoError × W) (id : Nat)
    (c : Cron) (w : W) (envs : List E) (env : E) :
    0 ≤ (syncJob.reached fn id c w envs).job.attempts ∧
    (syncJob.reached fn id c w envs).job.attempts ≤ maxSyncRetries ∧
    ((syncJob.reached fn id c w envs).job.jobID ∈ (syncJob.reached fn id c w envs).cron.entries →
      (countsAgainstBudget
          ((syncJob.reached fn id c w envs).job.fn env
            (syncJob.reached fn id c w envs).world).1 = true →
        ((syncJob.reached fn id c w envs).job.Run (syncJob.reached fn id c w envs).cron env
          (syncJob.reached fn id c w envs).world).job.attempts =
          (syncJob.reached fn id c w envs).job.attempts + 1) ∧
      (((syncJob.reached fn id c w envs).job.fn env
            (syncJob.reached fn id c w envs).world).1 = none →
        ((syncJob.reached fn id c w envs).job.Run (syncJob.reached fn id c w envs).cron env
          (syncJob.reached fn id c w envs).world).job.attempts = 0)) := by
  have hinv := syncJob.reached_inv fn id c w envs
  refine ⟨hinv.1, hinv.2.1, ?_⟩
  intro hsched
  have hw := syncJob.wrap_attempts _ _ hinv hsched
  constructor
  · intro hcount
    obtain ⟨err, _, hrun⟩ := syncJob.Run_counted _ (syncJob.reached fn id c w envs).cron env
      _ hcount
    rw [hrun, hw]
    unfold syncJob.abortIfMax
    split <;> rfl
  · intro hnone
    rw [syncJob.Run_success _ _ env _ hnone]

/-- The attempts of the job with entry 1 along a run: two failures, a
success, then five failures; the entry is removed by the last of them and a
later firing no longer runs the job. -/
theorem attempts_along_a_run :
    (syncJob.reached scriptedFn 1 exampleCron () twoFailures).job.attempts = 2 ∧
    (syncJob.reached scriptedFn 1 exampleCron () (twoFailures ++ [none])).job.attempts = 0 ∧
    (syncJob.reached scriptedFn 1 exampleCron ()
      (twoFailures ++ [none] ++ fiveFailures)).job.attempts = 5 ∧
    (syncJob.reached scriptedFn 1 exampleCron ()
      (twoFailures ++ [none] ++ fiveFailures)).cron.entries = [2] ∧
    (syncJob.reached scriptedFn 1 exampleCron ()
      (twoFailures ++ [none] ++ fiveFailures ++ [none])).job.attempts = 5 := by
  decide

/-! ## C16: the errors list and `attempts` -/

/-- C16: in every state a job created by `newSyncJob` reaches by calls of
`Run`, when the job has not been removed from the scheduler, the length of the
errors list equals `attempts` and is less than `maxSyncRetries`; and a `Run`
from such a state adds one to `attempts` while leaving the errors list as it
was exactly when the outcome is fatal. -/
theorem errors_match_attempts {E W : Type} (fn : E → W → Option GoError × W) (id : Nat)
    (c : Cron) (w : W) (envs : List E) (env : E)
    (hsched : (syncJob.reached fn id c w envs).job.jobID ∈
      (syncJob.reached fn id c w envs).cron.entries) :
    ((syncJob.reached fn id c w envs).job.errors.length : Int) =
      (syncJob.reached fn id c w envs).job.attempts ∧
    (syncJob.reached fn id c w envs).job.attempts < maxSyncRetries ∧
    ((((syncJob.reached fn id c w envs).job.Run (syncJob.reached fn id c w envs).cron env
          (syncJob.reached fn id c w envs).world).job.attempts =
          (syncJob.reached fn id c w envs).job.attempts + 1 ∧
        ((syncJob.reached fn id c w envs).job.Run (syncJob.reached fn id c w envs).cron env
          (syncJob.reached fn id c w envs).world).job.errors =
          (syncJob.reached fn id c w envs).job.errors) ↔
      isFatalOutcome ((syncJob.reached fn id c w envs).job.fn env
        (syncJob.reached fn id c w envs).world).1 = true) := by
  have hinv := syncJob.reached_inv fn id c w envs
  have hw := syncJob.wrap_attempts _ _ hinv hsched
  refine ⟨(hinv.2.2 hsched).2, (hinv.2.2 hsched).1, ?_⟩
  generalize syncJob.reached fn id c w envs = r at hinv hw hsched ⊢
  rcases outcome_cases (r.job.fn env r.world).1 with h | h | h
  · rw [syncJob.Run_success _ _ env _ h, h]
    have h0 := hinv.1
    constructor
    · rintro ⟨hatt, _⟩
      have : (0 : Int) = r.job.attempts + 1 := hatt
      omega
    · intro hf
      simp [isFatalOutcome] at hf
  · obtain ⟨err, _, hrun⟩ := syncJob.Run_counted r.job r.cron env r.world h
    have hjob : (syncJob.abortIfMax
        { r.job with attempts := wrapInt (r.job.attempts + 1), errors := r.job.errors ++ [err] }
        r.cron (r.job.fn env r.world).2).job.errors = r.job.errors ++ [err] := by
      unfold syncJob.abortIfMax
      split <;> rfl
    rw [hrun]
    constructor
    · rintro ⟨_, herrs⟩
      rw [hjob] at herrs
      have := congrArg List.length herrs
      simp at this
    · intro hf
      rw [isFatalOutcome_not_counted _ hf] at h
      exact absurd h (by simp)
  · rw [syncJob.Run_fatalOutcome _ _ env _ h, hw]
    exact ⟨fun _ => h, fun _ => ⟨rfl, rfl⟩⟩

/-- C16 after two failures of the job with entry 1, at a fatal outcome. -/
theorem errors_match_attempts_witness :
    ((syncJob.reached scriptedFn 1 exampleCron () twoFailures).job.errors.length : Int) =
      (syncJob.reached scriptedFn 1 exampleCron () twoFailures).job.attempts ∧
    (syncJob.reached scriptedFn 1 exampleCron () twoFailures).job.attempts < maxSyncRetries ∧
    ((((syncJob.reached scriptedFn 1 exampleCron () twoFailures).job.Run
          (syncJob.reached scriptedFn 1 exampleCron () twoFailures).cron
          (some (.sentinel .ErrFatal))
          (syncJob.reached scriptedFn 1 exampleCron () twoFailures).world).job.attempts =
        (syncJob.reached scriptedFn 1 exampleCron () twoFailures).job.attempts + 1 ∧
      ((syncJob.reached scriptedFn 1 exampleCron () twoFailures).job.Run
          (syncJob.reached scriptedFn 1 exampleCron () twoFailures).cron
          (some (.sentinel .ErrFatal))
          (syncJob.reached scriptedFn 1 exampleCron () twoFailures).world).job.errors =
        (syncJob.reached scriptedFn 1 exampleCron () twoFailures).job.errors) ↔
      isFatalOutcome ((syncJob.reached scriptedFn 1 exampleCron () twoFailures).job.fn
        (some (.sentinel .ErrFatal))
        (syncJob.reached scriptedFn 1 exampleCron () twoFailures).world).1 = true) :=
  errors_match_attempts scriptedFn 1 exampleCron () twoFailures (some (.sentinel .ErrFatal))
    (by decide)

/-- The errors list and `attempts` of the job with entry 1 along a run: equal
while the job is scheduled, and apart once a fatal outcome has removed it. -/
theorem errors_along_a_run :
    (syncJob.reached scriptedFn 1 exampleCron () twoFailures).job.errors.length = 2 ∧
    (syncJob.reached scriptedFn 1 exampleCron () twoFailures).job.attempts = 2 ∧
    (syncJob.reached scriptedFn 1 exampleCron ()
      (twoFailures ++ [some (.sentinel .ErrFatal)])).job.errors.length = 2 ∧
    (syncJob.reached scriptedFn 1 exampleCron ()
      (twoFailures ++ [some (.sentinel .ErrFatal)])).job.attempts = 3 ∧
    (syncJob.reached scriptedFn 1 exampleCron ()
      (twoFailures ++ [some (.sentinel .ErrFatal)])).cron.entries = [2] := by
  decide

/-! ## C13: `getScanTask` and its reference definition -/

theorem reference.keptFrom_cons (dr : drive) (seen : List String) (x : String × Bool)
    (xs : List (String × Bool)) :
    reference.keptFrom dr seen (x :: xs) =
      (if x.1 ∈ seen then [] else if dr.Allowed x.1 = true then [x] else []) ++
        reference.keptFrom dr (x.1 :: seen) xs := by
  unfold reference.keptFrom
  simp only [reference.firstOccurrences, List.filter_cons, List.filter_filter]
  have hcongr : (reference.firstOccurrences xs).filter
        (fun a => (decide (a.1 ∉ seen) && dr.Allowed a.1) && (a.1 != x.1)) =
      (reference.firstOccurrences xs).filter
        (fun y => decide (y.1 ∉ x.1 :: seen) && dr.Allowed y.1) := by
    apply List.filter_congr
    intro a _
    by_cases h1 : a.1 = x.1 <;> by_cases h2 : a.1 ∈ seen <;> simp [h1, h2]
  rw [hcongr]
  by_cases hseen : x.1 ∈ seen
  · simp [hseen]
  · by_cases hal : dr.Allowed x.1 = true
    · simp [hseen, hal]
    · simp [hseen, hal]

theorem reference.keptFrom_mem_congr (dr : drive) (seen seen2 : List String)
    (xs : List (String × Bool)) (h : ∀ r, r ∈ seen ↔ r ∈ seen2) :
    reference.keptFrom dr seen xs = reference.keptFrom dr seen2 xs := by
  unfold reference.keptFrom
  apply List.filter_congr
  intro a _
  simp [h a.1]

theorem reference.keptFrom_map_append (dr : drive) (b : Bool) (ps seen : List String)
    (rest : List (String × Bool)) :
    reference.keptFrom dr seen (ps.map (fun p => (dr.Rewriter p, b)) ++ rest) =
      (getScanTask.kept dr ps seen).map (fun r => (r, b)) ++
        reference.keptFrom dr (getScanTask.seenAfter dr ps seen) rest := by
  induction ps generalizing seen with
  | nil => simp [getScanTask.kept, getScanTask.seenAfter]
  | cons p ps ih =>
    simp only [List.map_cons, List.cons_append]
    rw [reference.keptFrom_cons]
    by_cases hseen : dr.Rewriter p ∈ seen
    · have hmem : ∀ r, r ∈ dr.Rewriter p :: seen ↔ r ∈ seen := by
        intro r
        simp only [List.mem_cons]
        exact ⟨fun h => h.elim (fun h => h ▸ hseen) id, Or.inr⟩
      rw [reference.keptFrom_mem_congr dr _ seen _ hmem, ih seen]
      simp [getScanTask.kept, getScanTask.seenAfter, hseen]
    · rw [ih (dr.Rewriter p :: seen)]
      by_cases hal : dr.Allowed (dr.Rewriter p) = true
      · simp [getScanTask.kept, getScanTask.seenAfter, hseen, hal]
      · have hal2 : dr.Allowed (dr.Rewriter p) = false := by simpa using hal
        simp [getScanTask.kept, getScanTask.seenAfter, hseen, hal2]

/-- The kept paths of the reference definition are those the loops keep:
first the ones from `NewFolders`, then the ones from `OldFolders`. -/
theorem reference.kept_eq (dr : drive) (paths : Paths) :
    reference.kept dr paths =
      (getScanTask.kept dr paths.NewFolders []).map (fun r => (r, true)) ++
        (getScanTask.kept dr paths.OldFolders
          (getScanTask.seenAfter dr paths.NewFolders [])).map (fun r => (r, false)) := by
  have h0 : reference.kept dr paths = reference.keptFrom dr [] (reference.rewritten dr paths) := by
    unfold reference.kept reference.keptFrom
    apply List.filter_congr
    intro a _
    simp
  rw [h0, reference.rewritten, reference.keptFrom_map_append]
  have h1 := reference.keptFrom_map_append dr false paths.OldFolders
    (getScanTask.seenAfter dr paths.NewFolders []) []
  rw [List.append_nil] at h1
  rw [h1]
  simp [reference.keptFrom, reference.firstOccurrences]

theorem getScanTask.mkScans_priority (d : daemon) (dr : drive) (clock : Nat)
    (rs : List String) : ∀ s ∈ getScanTask.mkScans d dr clock rs, s.Priority = d.priority := by
  induction rs generalizing clock with
  | nil => simp [getScanTask.mkScans]
  | cons r rs ih =>
    intro s hs
    simp only [getScanTask.mkScans, List.mem_cons] at hs
    rcases hs with hs | hs
    · rw [hs]
    · exact ih _ s hs

theorem getScanTask_eq_reference (d : daemon) (dr : drive) (paths : Paths) (clock : Nat) :
    getScanTask d dr paths clock = getScanTask.reference d dr paths clock := by
  rw [getScanTask_eq, getScanTask.reference, reference.kept_eq]
  simp [List.filter_append, List.filter_map, Function.comp_def]

/-- C13: `getScanTask` equals its reference definition. With the kept paths
being the first occurrences, among the rewritten forms of `NewFolders`
followed by those of `OldFolders`, that the `Allowed` predicate accepts: the
folders of the returned scans are the clean forms of the kept paths in that
order, every scan has the priority of the daemon, `task.added` is the number
of kept paths that came from `NewFolders` and `task.removed` the number that
came from `OldFolders`. In particular, with the identity rewriter and a filter
that allows everything, the new folders `/x/y`, `/x/y` and the old folder
`/x/z` yield scans for `/x/y` then `/x/z` with `added = 1` and
`removed = 1`. -/
theorem getScanTask_refines_reference (d : daemon) (dr : drive) (paths : Paths) (clock : Nat) :
    getScanTask d dr paths clock = getScanTask.reference d dr paths clock ∧
    (getScanTask d dr paths clock).scans.map Scan.Folder =
      (reference.kept dr paths).map (fun x => filepath.Clean x.1) ∧
    (∀ s ∈ (getScanTask d dr paths clock).scans, s.Priority = d.priority) ∧
    (getScanTask d dr paths clock).added =
      ((reference.kept dr paths).filter (fun x => x.2)).length ∧
    (getScanTask d dr paths clock).removed =
      ((reference.kept dr paths).filter (fun x => !x.2)).length ∧
    ((∀ p, dr.Rewriter p = p) → (∀ p, dr.Allowed p = true) →
      (getScanTask d dr { NewFolders := ["/x/y", "/x/y"], OldFolders := ["/x/z"] }
          clock).scans.map Scan.Folder = ["/x/y", "/x/z"] ∧
      (getScanTask d dr { NewFolders := ["/x/y", "/x/y"], OldFolders := ["/x/z"] }
          clock).added = 1 ∧
      (getScanTask d dr { NewFolders := ["/x/y", "/x/y"], OldFolders := ["/x/z"] }
          clock).removed = 1) := by
  have href := getScanTask_eq_reference d dr paths clock
  refine ⟨href, ?_, ?_, ?_, ?_, ?_⟩
  · rw [href, getScanTask.reference, getScanTask.mkScans_folders, List.map_map]
    rfl
  · rw [href, getScanTask.reference]
    exact getScanTask.mkScans_priority d dr clock _
  · rw [href, getScanTask.reference]
  · rw [href, getScanTask.reference]
  · intro hR hA
    have hxy : filepath.Clean "/x/y" = "/x/y" := by decide
    have hxz : filepath.Clean "/x/z" = "/x/z" := by decide
    have hne : ¬ ("/x/z" = "/x/y") := by decide
    rw [getScanTask_eq, getScanTask.mkScans_folders]
    simp [getScanTask.kept, getScanTask.seenAfter, hR, hA, hxy, hxz, hne]

/-- The scenario of C13 evaluated: scans for `/x/y` then `/x/z`, the first
counted as added and the second as removed. -/
theorem getScanTask_scenario :
    getScanTask exampleDaemon allowAllDrive
        { NewFolders := ["/x/y", "/x/y"], OldFolders := ["/x/z"] } 0 =
      { scans := [{ Folder := "/x/y", Priority := 3, Time := 0 },
                  { Folder := "/x/z", Priority := 3, Time := 1 }],
        added := 1, removed := 1 } ∧
    getScanTask.reference exampleDaemon allowAllDrive
        { NewFolders := ["/x/y", "/x/y"], OldFolders := ["/x/z"] } 0 =
      { scans := [{ Folder := "/x/y", Priority := 3, Time := 0 },
                  { Folder := "/x/z", Priority := 3, Time := 1 }],
        added := 1, removed := 1 } := by
  decide

/-! ## C15: the counters and the scans -/

theorem getScanTask.kept_length_le (dr : drive) (ps seen : List String) :
    (getScanTask.kept dr ps seen).length ≤ ps.length := by
  induction ps generalizing seen with
  | nil => simp [getScanTask.kept]
  | cons p ps ih =>
    simp only [getScanTask.kept, List.length_cons]
    split
    · exact Nat.le_succ_of_le (ih _)
    · split
      · exact Nat.le_succ_of_le (ih _)
      · simp only [List.length_cons]
        exact Nat.succ_le_succ (ih _)

/-- C15: the task returned by `getScanTask` satisfies
`task.added + task.removed = len(task.scans)`, `task.added <= len(NewFolders)`
and `task.removed <= len(OldFolders)`; each of the first `task.added` scans
has the folder of a path of `NewFolders`, and the scans after them, of which
there are `task.removed`, each have the folder of a path of `OldFolders`. -/
theorem getScanTask_counters (d : daemon) (dr : drive) (paths : Paths) (clock : Nat) :
    (getScanTask d dr paths clock).added + (getScanTask d dr paths clock).removed =
      (getScanTask d dr paths clock).scans.length ∧
    (getScanTask d dr paths clock).added ≤ paths.NewFolders.length ∧
    (getScanTask d dr paths clock).removed ≤ paths.OldFolders.length ∧
    (∀ s ∈ (getScanTask d dr paths clock).scans.take (getScanTask d dr paths clock).added,
      ∃ p ∈ paths.NewFolders, s.Folder = filepath.Clean (dr.Rewriter p)) ∧
    (∀ s ∈ (getScanTask d dr paths clock).scans.drop (getScanTask d dr paths clock).added,
      ∃ p ∈ paths.OldFolders, s.Folder = filepath.Clean (dr.Rewriter p)) ∧
    ((getScanTask d dr paths clock).scans.drop (getScanTask d dr paths clock).added).length =
      (getScanTask d dr paths clock).removed := by
  have hsum : (getScanTask d dr paths clock).added + (getScanTask d dr paths clock).removed =
      (getScanTask d dr paths clock).scans.length := by
    rw [getScanTask_eq]
    simp [getScanTask.mkScans_length]
  refine ⟨hsum, ?_, ?_, ?_, ?_, ?_⟩
  · rw [getScanTask_eq]
    exact getScanTask.kept_length_le dr _ _
  · rw [getScanTask_eq]
    exact getScanTask.kept_length_le dr _ _
  · intro s hs
    have hf : s.Folder ∈ ((getScanTask d dr paths clock).scans.take
        (getScanTask d dr paths clock).added).map Scan.Folder := List.mem_map_of_mem _ hs
    rw [getScanTask.take_added] at hf
    obtain ⟨r, hr, hrs⟩ := List.mem_map.1 hf
    obtain ⟨_, _, p, hp, hpr⟩ := (getScanTask.mem_kept dr _ _ r).1 hr
    exact ⟨p, hp, by rw [hpr]; exact hrs.symm⟩
  · intro s hs
    have hf : s.Folder ∈ ((getScanTask d dr paths clock).scans.drop
        (getScanTask d dr paths clock).added).map Scan.Folder := List.mem_map_of_mem _ hs
    rw [getScanTask.drop_added] at hf
    obtain ⟨r, hr, hrs⟩ := List.mem_map.1 hf
    obtain ⟨_, _, p, hp, hpr⟩ := (getScanTask.mem_kept dr _ _ r).1 hr
    exact ⟨p, hp, by rw [hpr]; exact hrs.symm⟩
  · rw [List.length_drop]
    omega

/-! ## C14: when the callback is invoked -/

/-- C14: in every execution of a job function the downstream callback is
invoked at most once. `PartialSync` is called exactly when the gate was
acquired and the execution is incremental, `getScanTask` is run exactly when,
in addition, `PartialSync` returned no error, and the callback is invoked
exactly when, in addition, `getScanTask` returned a non-empty scan list; the
calls of that execution are then `Acquire`, `PartialSync`, `getScanTask`, the
callback with the whole list returned by `getScanTask`, and `Release`. A
full-sync execution never runs `getScanTask` and never invokes the
callback. -/
theorem callback_invoked_once (d : daemon) (dr : drive) (env : Env) (w : JobWorld) :
    ((startAutoSync.job.calls d dr env w).filter Event.isCallback).length ≤ 1 ∧
    ((∃ scans, Event.callback scans ∈ startAutoSync.job.calls d dr env w) ↔
      (env.Acquire = none ∧ w.fullSync = false ∧ env.PartialSync = none ∧
        (getScanTask d dr env.paths w.clock).scans ≠ [])) ∧
    (Event.PartialSync dr.ID ∈ startAutoSync.job.calls d dr env w ↔
      (env.Acquire = none ∧ w.fullSync = false)) ∧
    (Event.getScanTask env.paths ∈ startAutoSync.job.calls d dr env w ↔
      (env.Acquire = none ∧ w.fullSync = false ∧ env.PartialSync = none)) ∧
    (env.Acquire = none → w.fullSync = false → env.PartialSync = none →
      (getScanTask d dr env.paths w.clock).scans ≠ [] →
      startAutoSync.job.calls d dr env w =
        [Event.Acquire, Event.PartialSync dr.ID, Event.getScanTask env.paths,
          Event.callback (getScanTask d dr env.paths w.clock).scans, Event.Release]) ∧
    ((∃ scans, Event.callback scans ∈ startAutoSync.job.calls d dr env w) ↔
      (w.fullSync = false ∧ Event.PartialSync dr.ID ∈ startAutoSync.job.calls d dr env w ∧
        env.PartialSync = none ∧ (getScanTask d dr env.paths w.clock).scans ≠ [])) ∧
    (∀ scans, Event.callback scans ∈ startAutoSync.job.calls d dr env w →
      scans = (getScanTask d dr env.paths w.clock).scans) ∧
    (w.fullSync = true →
      ∀ ev ∈ startAutoSync.job.calls d dr env w,
        ev.isCallback = false ∧ ev.isGetScanTask = false) := by
  have hcallback : (∃ scans, Event.callback scans ∈ startAutoSync.job.calls d dr env w) ↔
      (env.Acquire = none ∧ w.fullSync = false ∧ env.PartialSync = none ∧
        (getScanTask d dr env.paths w.clock).scans ≠ []) := by
    constructor
    · rintro ⟨scans, h⟩
      obtain ⟨hacq, hfull, hps, hscans, _⟩ :=
        startAutoSync.job_callback_called d dr env w scans h
      exact ⟨hacq, hfull, hps, hscans⟩
    · rintro ⟨hacq, hfull, hps, hscans⟩
      refine ⟨(getScanTask d dr env.paths w.clock).scans, ?_⟩
      rw [startAutoSync.job.calls_callback d dr env w hacq hfull hps hscans]
      simp
  have hpartial : Event.PartialSync dr.ID ∈ startAutoSync.job.calls d dr env w ↔
      (env.Acquire = none ∧ w.fullSync = false) := by
    constructor
    · intro h
      cases hacq : env.Acquire with
      | some e =>
        rw [startAutoSync.job.calls_acquire_failed d dr env w e hacq] at h
        simp at h
      | none =>
        by_cases hfull1 : w.fullSync = true
        · rw [startAutoSync.job.calls_full d dr env w hacq hfull1] at h
          simp at h
        · exact ⟨rfl, by simpa using hfull1⟩
    · rintro ⟨hacq, hfull⟩
      exact (startAutoSync.job.calls_incremental d dr env w hacq hfull).1
  refine ⟨?_, hcallback, hpartial, ?_,
    fun hacq hfull hps hscans => startAutoSync.job.calls_callback d dr env w hacq hfull hps hscans,
    ?_, fun scans h => (startAutoSync.job_callback_called d dr env w scans h).2.2.2.2, ?_⟩
  · cases hacq : env.Acquire with
    | some e =>
      rw [startAutoSync.job.calls_acquire_failed d dr env w e hacq]
      simp [Event.isCallback]
    | none =>
      by_cases hfull1 : w.fullSync = true
      · rw [startAutoSync.job.calls_full d dr env w hacq hfull1]
        simp [Event.isCallback]
      · have hfull : w.fullSync = false := by simpa using hfull1
        cases hps : env.PartialSync with
        | some e =>
          rw [startAutoSync.job.calls_partialSync_failed d dr env w e hacq hfull hps]
          simp [Event.isCallback]
        | none =>
          by_cases hscans : (getScanTask d dr env.paths w.clock).scans = []
          · rw [startAutoSync.job.calls_no_scans d dr env w hacq hfull hps hscans]
            simp [Event.isCallback]
          · rw [startAutoSync.job.calls_callback d dr env w hacq hfull hps hscans]
            simp [Event.isCallback]
  · constructor
    · intro h
      cases hacq : env.Acquire with
      | some e =>
        rw [startAutoSync.job.calls_acquire_failed d dr env w e hacq] at h
        simp at h
      | none =>
        by_cases hfull1 : w.fullSync = true
        · rw [startAutoSync.job.calls_full d dr env w hacq hfull1] at h
          simp at h
        · have hfull : w.fullSync = false := by simpa using hfull1
          cases hps : env.PartialSync with
          | some e =>
            rw [startAutoSync.job.calls_partialSync_failed d dr env w e hacq hfull hps] at h
            simp at h
          | none => exact ⟨rfl, hfull, rfl⟩
    · rintro ⟨hacq, hfull, hps⟩
      by_cases hscans : (getScanTask d dr env.paths w.clock).scans = []
      · rw [startAutoSync.job.calls_no_scans d dr env w hacq hfull hps hscans]
        simp
      · rw [startAutoSync.job.calls_callback d dr env w hacq hfull hps hscans]
        simp
  · rw [hcallback, hpartial]
    constructor
    · rintro ⟨hacq, hfull, hps, hscans⟩
      exact ⟨hfull, ⟨hacq, hfull⟩, hps, hscans⟩
    · rintro ⟨hfull, ⟨hacq, _⟩, hps, hscans⟩
      exact ⟨hacq, hfull, hps, hscans⟩
  · intro hfull ev hev
    cases hacq : env.Acquire with
    | some e =>
      rw [startAutoSync.job.calls_acquire_failed d dr env w e hacq] at hev
      simp only [List.mem_singleton] at hev
      subst hev
      exact ⟨rfl, rfl⟩
    | none =>
      rw [startAutoSync.job.calls_full d dr env w hacq hfull] at hev
      simp only [List.mem_cons, List.mem_singleton, List.not_mem_nil, or_false] at hev
      rcases hev with hev | hev | hev <;> subst hev <;> exact ⟨rfl, rfl⟩

/-- C14 at the incremental execution of the job of drive `A` in which every
collaborator succeeds: the one scan is delivered, in one call. -/
theorem callback_invoked_once_witness :
    startAutoSync.job.calls exampleDaemon allowAllDrive quietEnv incrementalWorld =
      [Event.Acquire, Event.PartialSync "A",
        Event.getScanTask { NewFolders := ["/x/y"], OldFolders := [] },
        Event.callback [{ Folder := "/x/y", Priority := 3, Time := 0 }], Event.Release] ∧
    ((startAutoSync.job.calls exampleDaemon allowAllDrive quietEnv incrementalWorld).filter
      Event.isCallback).length ≤ 1 :=
  ⟨(callback_invoked_once exampleDaemon allowAllDrive quietEnv incrementalWorld).2.2.2.2.1
      rfl rfl rfl (by decide),
    (callback_invoked_once exampleDaemon allowAllDrive quietEnv incrementalWorld).1⟩

/-- The calls of three executions of the job of drive `A`: an incremental one
that delivers its scan, an incremental one with nothing to deliver, and a full
sync. -/
theorem callback_in_three_executions :
    startAutoSync.job.calls exampleDaemon allowAllDrive quietEnv incrementalWorld =
      [Event.Acquire, Event.PartialSync "A",
        Event.getScanTask { NewFolders := ["/x/y"], OldFolders := [] },
        Event.callback [{ Folder := "/x/y", Priority := 3, Time := 0 }], Event.Release] ∧
    startAutoSync.job.calls exampleDaemon denyAllDrive quietEnv incrementalWorld =
      [Event.Acquire, Event.PartialSync "A",
        Event.getScanTask { NewFolders := ["/x/y"], OldFolders := [] }, Event.Release] ∧
    startAutoSync.job.calls exampleDaemon allowAllDrive quietEnv fullSyncWorld =
      [Event.Acquire, Event.FullSync "A", Event.Release] := by
  decide

/-! ## C17: the captured variable `fullSync` -/

theorem startAutoSync.job_flag_any (d : daemon) (dr : drive) (env : Env) (w : JobWorld) :
    (startAutoSync.job d dr env w).2.fullSync =
      (w.fullSync && !(env.Acquire.isNone && env.FullSync.isNone)) := by
  cases hacq : env.Acquire with
  | some e =>
    rw [startAutoSync.job_acquire_failed d dr env w e hacq]
    simp
  | none =>
    rw [startAutoSync.job_flag d dr env w (by rw [hacq])]
    cases env.FullSync <;> simp

theorem startAutoSync.job.executions_flag (d : daemon) (dr : drive) (w : JobWorld)
    (envs : List Env) (h : w.fullSync = false) :
    (startAutoSync.job.executions d dr w envs).fullSync = false := by
  induction envs generalizing w with
  | nil => exact h
  | cons env envs ih =>
    simp only [startAutoSync.job.executions]
    apply ih
    rw [startAutoSync.job_flag_any, h]
    rfl

/-- C17, as stated, fails: the full sync of the first execution fails and the
captured variable stays set, but the limiter fails in the next execution, and
that execution returns after `Acquire` without performing a full sync. -/
theorem full_sync_not_repeated :
    (startAutoSync.job exampleDaemon allowAllDrive fullSyncFailedEnv
      fullSyncWorld).2.fullSync = true ∧
    startAutoSync.job.calls exampleDaemon allowAllDrive gateFailedEnv
        (startAutoSync.job exampleDaemon allowAllDrive fullSyncFailedEnv fullSyncWorld).2 =
      [Event.Acquire] := by
  decide

/-- C17, amended: when a full-sync execution fails (`FullSync` returns an
error), the captured variable `fullSync` is left set, so the next execution of
the same job function, when `limiter.Acquire` succeeds, performs a full sync
again; the variable is cleared by an execution exactly when `Acquire`
succeeds and `FullSync` returns no error; once cleared it is never set
again, whatever executions follow; and an execution in which `Acquire` fails
makes no other call and leaves the variable as it was. -/
theorem full_sync_flag (d : daemon) (dr : drive) (env : Env) (w : JobWorld) :
    (w.fullSync = true → env.Acquire = none → env.FullSync ≠ none →
      (startAutoSync.job d dr env w).2.fullSync = true ∧
      ∀ env2 : Env, env2.Acquire = none →
        startAutoSync.job.calls d dr env2 (startAutoSync.job d dr env w).2 =
          [Event.Acquire, Event.FullSync dr.ID, Event.Release]) ∧
    ((w.fullSync = true ∧ (startAutoSync.job d dr env w).2.fullSync = false) ↔
      (w.fullSync = true ∧ env.Acquire = none ∧ env.FullSync = none)) ∧
    (w.fullSync = false →
      ∀ envs, (startAutoSync.job.executions d dr w envs).fullSync = false) ∧
    (∀ e, env.Acquire = some e →
      startAutoSync.job.calls d dr env w = [Event.Acquire] ∧
      (startAutoSync.job d dr env w).2.fullSync = w.fullSync) := by
  refine ⟨?_, ?_, fun h envs => startAutoSync.job.executions_flag d dr w envs h, ?_⟩
  · intro hfull hacq hfs
    have hflag : (startAutoSync.job d dr env w).2.fullSync = true := by
      rw [startAutoSync.job_flag_any, hfull, hacq]
      cases hres : env.FullSync with
      | none => exact absurd hres hfs
      | some e => rfl
    exact ⟨hflag, fun env2 hacq2 => startAutoSync.job.calls_full d dr env2 _ hacq2 hflag⟩
  · rw [startAutoSync.job_flag_any]
    constructor
    · rintro ⟨hfull, hflag⟩
      rw [hfull] at hflag
      cases hacq : env.Acquire with
      | some e => simp [hacq] at hflag
      | none =>
        cases hfs : env.FullSync with
        | some e => simp [hacq, hfs] at hflag
        | none => exact ⟨hfull, rfl, rfl⟩
    · rintro ⟨hfull, hacq, hfs⟩
      simp [hfull, hacq, hfs]
  · intro e hacq
    refine ⟨startAutoSync.job.calls_acquire_failed d dr env w e hacq, ?_⟩
    rw [startAutoSync.job_acquire_failed d dr env w e hacq]

/-- The captured variable along three executions of the job of drive `A`: a
full sync that fails, a full sync that succeeds, and a partial sync that
fails. -/
theorem full_sync_flag_along_a_run :
    (startAutoSync.job.executions exampleDaemon allowAllDrive fullSyncWorld
      [fullSyncFailedEnv]).fullSync = true ∧
    (startAutoSync.job.executions exampleDaemon allowAllDrive fullSyncWorld
      [fullSyncFailedEnv, quietEnv]).fullSync = false ∧
    (startAutoSync.job.executions exampleDaemon allowAllDrive fullSyncWorld
      [fullSyncFailedEnv, quietEnv, fullSyncFailedEnv]).fullSync = false ∧
    (startAutoSync.job.executions exampleDaemon allowAllDrive fullSyncWorld
      [fullSyncFailedEnv, quietEnv]).trace =
      [Event.Acquire, Event.FullSync "A", Event.Release,
        Event.Acquire, Event.FullSync "A", Event.Release] := by
  decide

end Bernard
